import Mathlib

/-!
Verification development for the japan-event-finder scraping pipeline.

The TypeScript sources are embedded shallowly: every pure helper of the
scrapers (date/price/area/category normalizers, id generation, the per-block
and per-page extraction loops, and the orchestrator's source lookup) is
translated into an executable Lean definition.  Network fetches and the
CSS-selector extraction layer (the external "markup query surface") are
modelled as explicit inputs: a page outcome is `Except String (List CandidateBlock)`
— either a transport error or the list of candidate blocks, each block carrying
the text fields that the selectors produce.  `Date.now`-style clock reads are
passed in as explicit `currentYear` / `currentMonth` / `today` parameters.
-/

namespace JEF

/-! ## Generic string helpers (JavaScript string semantics) -/

/-- ASCII lower-casing of one character, as `String.prototype.toLowerCase`
acts on ASCII letters (the only case-folding our inputs rely on). -/
def lowerChar (c : Char) : Char :=
  if 'A' ≤ c ∧ c ≤ 'Z' then Char.ofNat (c.toNat + 32) else c

/-- ASCII upper-casing of one character, as `String.prototype.toUpperCase`. -/
def upperChar (c : Char) : Char :=
  if 'a' ≤ c ∧ c ≤ 'z' then Char.ofNat (c.toNat - 32) else c

/-- `s.toLowerCase()` restricted to ASCII letters. -/
def lowerStr (s : String) : String := ⟨s.data.map lowerChar⟩

/-- Is `pre` a prefix of `l`? -/
def isPrefixList : List Char → List Char → Bool
  | [], _ => true
  | _ :: _, [] => false
  | a :: as, b :: bs => a = b && isPrefixList as bs

/-- Substring containment on character lists (JavaScript `String.prototype.includes`). -/
def containsList (needle : List Char) : List Char → Bool
  | [] => isPrefixList needle []
  | c :: tl => isPrefixList needle (c :: tl) || containsList needle tl

/-- `hay.includes(needle)` (case-sensitive, as in JavaScript). -/
def containsStr (needle hay : String) : Bool := containsList needle.data hay.data

/-- `s.startsWith(pre)`. -/
def jsStartsWith (pre s : String) : Bool := isPrefixList pre.data s.data

/-- JavaScript string-or: `a || b` evaluates to `b` when `a` is the empty string. -/
def jsOr (a b : String) : String := if a = "" then b else a

/-- JavaScript `text || null` turned into an `Option`. -/
def strOrNull (a : String) : Option String := if a = "" then none else some a

/-- Truthiness of an optional string (`undefined`/`null`/`""` are falsy). -/
def optFalsy : Option String → Bool
  | none => true
  | some s => s = ""

/-- A link extracted from a block: `if (!link) return` skips both a missing
attribute and an empty one, so both collapse to `none`. -/
def presentLink : Option String → Option String
  | none => none
  | some s => if s = "" then none else some s

/-! ## Digits and numerals -/

def isDigitChar (c : Char) : Bool := '0' ≤ c && c ≤ '9'

def digitVal (c : Char) : Nat := c.toNat - 48

/-- `parseInt` on a run of decimal digit characters. -/
def digitsToNat (l : List Char) : Nat := l.foldl (fun acc c => 10 * acc + digitVal c) 0

/-- Worker for `digitRuns`: `acc` holds the digits of the current run, reversed. -/
def digitRunsGo : List Char → List Char → List (List Char)
  | acc, [] => if acc.isEmpty then [] else [acc.reverse]
  | acc, c :: tl =>
    if isDigitChar c then digitRunsGo (c :: acc) tl
    else if acc.isEmpty then digitRunsGo [] tl
    else acc.reverse :: digitRunsGo [] tl

/-- All maximal runs of decimal digits, in order (JavaScript `s.match(/\d+/g)`,
with `null` represented by the empty list). -/
def digitRuns (l : List Char) : List (List Char) := digitRunsGo [] l

/-- `s.replace(/[…]/g, "")` for a character class: drop every listed character. -/
def stripChars (drop : List Char) (l : List Char) : List Char :=
  l.filter (fun c => !(drop.contains c))

def digitChar (k : Nat) : Char := Char.ofNat (48 + k)

/-- Decimal digits of `n`, least significant first; `fuel` bounds the recursion. -/
def natDigitsRev : Nat → Nat → List Char
  | 0, _ => []
  | _ + 1, 0 => []
  | fuel + 1, n => digitChar (n % 10) :: natDigitsRev fuel (n / 10)

/-- Decimal rendering of a natural number (JavaScript number-to-string in a
template literal, for the integer values that occur here). -/
def natToStr (n : Nat) : String := if n = 0 then "0" else ⟨(natDigitsRev (n + 1) n).reverse⟩

/-- Base-36 digit characters `0-9a-z`, as produced by `Number.prototype.toString(36)`. -/
def digit36 (k : Nat) : Char := if k < 10 then Char.ofNat (48 + k) else Char.ofNat (87 + k)

def base36Rev : Nat → Nat → List Char
  | 0, _ => []
  | _ + 1, 0 => []
  | fuel + 1, n => digit36 (n % 36) :: base36Rev fuel (n / 36)

/-- `n.toString(36)` for a non-negative integer. -/
def natToBase36 (n : Nat) : String := if n = 0 then "0" else ⟨(base36Rev (n + 1) n).reverse⟩

/-! ## BaseScraper.generateId (src/scrapers/base.ts) -/

/-- Wrap an integer to JavaScript's signed 32-bit range (the effect of `| 0`
and of `<< 5` on the running value). -/
def toInt32 (n : Int) : Int := (n + 2147483648) % 4294967296 - 2147483648

/-- UTF-16 code units of one character (`charCodeAt` enumerates code units). -/
def utf16Units (c : Char) : List Nat :=
  if c.toNat < 65536 then [c.toNat]
  else [55296 + (c.toNat - 65536) / 1024, 56320 + (c.toNat - 65536) % 1024]

/-- One step of the rolling hash: `acc = ((acc << 5) - acc + code) | 0`. -/
def hashStep (acc : Int) (code : Nat) : Int := toInt32 (toInt32 (acc * 32) - acc + (code : Int))

/-- The rolling hash of `BaseScraper.generateId`:
`unique.split("").reduce((acc, ch) => ((acc << 5) - acc + ch.charCodeAt(0)) | 0, 0)`. -/
def jsHash (s : String) : Int := ((s.data.map utf16Units).flatten).foldl hashStep 0

/-- `BaseScraper.generateId(prefix, unique)`:
`` `${prefix}-${Math.abs(hash).toString(36)}` ``. -/
def generateId (pref unique : String) : String :=
  pref ++ "-" ++ natToBase36 (jsHash unique).natAbs

/-! ## BaseScraper.parsePrice, detectArea, detectCategory (src/scrapers/base.ts) -/

/-- `BaseScraper.parsePrice`: strip commas, take the first digit run, `parseInt` it. -/
def parsePrice (priceStr : String) : Option Nat :=
  match (digitRuns (stripChars [','] priceStr.data)).head? with
  | some run => some (digitsToNat run)
  | none => none

/-- Does the alternation `kw1|kw2|…` with the `i` flag match `text`?  Each
alternative is a literal substring; the `i` flag folds ASCII case. -/
def patternTest (kws : List String) (text : String) : Bool :=
  kws.any (fun kw => containsStr (lowerStr kw) (lowerStr text))

/-- First-match lookup shared by `detectArea` and `detectCategory`: walk the
pattern list in order, return the value of the first matching group, else the
fallback.  (Both methods are the same `for`-loop over a `[RegExp, string][]`.) -/
def detectFirst (pats : List (List String × String)) (fallback : String) (text : String) : String :=
  match pats.find? (fun p => patternTest p.1 text) with
  | some p => p.2
  | none => fallback

/-- The `areaPatterns` table of `BaseScraper.detectArea`, with each regex
alternation split into its literal alternatives (the non-ASCII keywords are
byte-for-byte those of the source file). -/
def areaPatterns : List (List String × String) :=
  [ (["жқұдә¬", "tokyo", "жёӢи°·", "ж–°е®ҝ", "жұ иўӢ", "йҠҖеә§", "е…ӯжң¬жңЁ", "з§Ӣи‘үеҺҹ", "дёҠйҮҺ", "жө…иҚү"], "Tokyo"),
    (["еӨ§йҳӘ", "osaka", "жў…з”°", "йӣЈжіў", "еҝғж–Һж©Ӣ"], "Osaka"),
    (["дә¬йғҪ", "kyoto"], "Kyoto"),
    (["жЁӘжөң", "yokohama"], "Yokohama"),
    (["еҗҚеҸӨеұӢ", "nagoya"], "Nagoya"),
    (["зҰҸеІЎ", "fukuoka", "еҚҡеӨҡ"], "Fukuoka"),
    (["жңӯе№Ң", "sapporo"], "Sapporo"),
    (["зҘһжҲё", "kobe"], "Kobe"),
    (["еәғеі¶", "hiroshima"], "Hiroshima"),
    (["д»ҷеҸ°", "sendai"], "Sendai") ]

/-- `BaseScraper.detectArea`. -/
def detectArea (text : String) : String := detectFirst areaPatterns "Japan" text

/-- The `categoryPatterns` table of `BaseScraper.detectCategory`. -/
def categoryPatterns : List (List String × String) :=
  [ (["жӯҢиҲһдјҺ", "kabuki"], "kabuki"),
    (["иҗҪиӘһ", "rakugo"], "rakugo"),
    (["гӮӘгғјгӮұгӮ№гғҲгғ©", "orchestra", "дәӨйҹҝжҘҪ", "symphony", "гӮҜгғ©гӮ·гғғгӮҜ", "classical"], "orchestra"),
    (["гғҹгғҘгғјгӮёгӮ«гғ«", "musical", "broadway"], "musical"),
    (["гӮўгғӢгғЎ", "anime", "manga", "жј«з”»", "гӮігғ©гғң", "collab"], "anime"),
    (["гӮігғігӮөгғјгғҲ", "concert", "гғ©гӮӨгғ–", "live", "йҹіжҘҪ", "music"], "concert"),
    (["жј”еҠҮ", "theatre", "theater", "иҲһеҸ°", "stage"], "theatre"),
    (["зҘӯгӮҠ", "festival", "гҒҫгҒӨгӮҠ", "matsuri"], "festival"),
    (["еұ•зӨә", "exhibition", "еұ•иҰ§", "зҫҺиЎ“", "art", "museum"], "art"),
    (["жҳ з”»", "film", "movie", "cinema"], "film") ]

/-- `BaseScraper.detectCategory`. -/
def detectCategory (text : String) : String := detectFirst categoryPatterns "event" text

/-! ## Regex scanning

The scrapers use a handful of fixed regular expressions, each an anchored-free
search (`String.prototype.match` without the `g` flag): the pattern is tried at
every start position from the left, with JavaScript's greedy/backtracking
semantics.  Each pattern below gets a dedicated `matchXAt` (attempt at one
position) and is searched with `scanP` (first position whose attempt succeeds). -/

/-- Greedy `\d{1,2}` followed by one terminator character from `terms`:
try two digits then a terminator, backtrack to one digit, else fail.  Returns
the digit capture and the rest of the input after the terminator. -/
def grab12 (terms : List Char) : List Char → Option (List Char × List Char)
  | [] => none
  | [_] => none
  | x :: y :: rest =>
    if isDigitChar x then
      if isDigitChar y then
        match rest with
        | z :: rest2 =>
          if terms.contains z then some ([x, y], rest2)
          else if terms.contains y then some ([x], rest)
          else none
        | [] => if terms.contains y then some ([x], []) else none
      else if terms.contains y then some ([x], rest)
      else none
    else none

/-- `\d{4}` followed by one terminator character from `terms` (fixed width, no
backtracking). -/
def grab4 (terms : List Char) : List Char → Option (List Char × List Char)
  | a :: b :: c :: d :: t :: rest =>
    if isDigitChar a && isDigitChar b && isDigitChar c && isDigitChar d && terms.contains t
    then some ([a, b, c, d], rest)
    else none
  | _ => none

/-- Trailing greedy `\d{1,2}` at the end of a pattern (no terminator needed). -/
def grabEnd12 : List Char → Option (List Char)
  | [] => none
  | [x] => if isDigitChar x then some [x] else none
  | x :: y :: _ =>
    if isDigitChar x then
      if isDigitChar y then some [x, y] else some [x]
    else none

/-- Search `l` left to right for the first position where `matchAt` succeeds. -/
def scanP {α : Type} (matchAt : List Char → Option α) : List Char → Option α
  | [] => none
  | x :: tl =>
    match matchAt (x :: tl) with
    | some r => some r
    | none => scanP matchAt tl

/-- `(\d{4})年(\d{1,2})月(\d{1,2})日` at one position. -/
def matchFullDateAt (l : List Char) : Option (List Char × List Char × List Char) := do
  let (y, r1) ← grab4 ['年'] l
  let (m, r2) ← grab12 ['月'] r1
  let (d, _) ← grab12 ['日'] r2
  some (y, m, d)

/-- `(\d{1,2})sep(\d{1,2})` at one position, for a separator class `seps`
(`/` for Ticket Pia, `.` or `/` for Billboard Live). -/
def matchShortAt (seps : List Char) (l : List Char) : Option (List Char × List Char) := do
  let (m, r) ← grab12 seps l
  let d ← grabEnd12 r
  some (m, d)

/-- `(\d{1,2})月(\d{1,2})日` at one position. -/
def matchMonthDayAt (l : List Char) : Option (List Char × List Char) := do
  let (m, r) ← grab12 ['月'] l
  let (d, _) ← grab12 ['日'] r
  some (m, d)

/-- `(\d{4})[.\/](\d{1,2})[.\/](\d{1,2})` at one position. -/
def matchFullDottedAt (l : List Char) : Option (List Char × List Char × List Char) := do
  let (y, r1) ← grab4 ['.', '/'] l
  let (m, r2) ← grab12 ['.', '/'] r1
  let d ← grabEnd12 r2
  some (y, m, d)

/-- The range separator class `[〜～\-]` of the Kabuki-bito date patterns. -/
def rangeSeps : List Char := ['〜', '～', '-']

/-- `(\d{1,2})月(\d{1,2})日[〜～\-](\d{1,2})日` at one position
(the same-month range pattern of `parseKabukiDateRange`). -/
def matchSameRangeAt (l : List Char) : Option (List Char × List Char × List Char) := do
  let (m, r1) ← grab12 ['月'] l
  let (d1, r2) ← grab12 ['日'] r1
  match r2 with
  | s :: r3 =>
    if rangeSeps.contains s then do
      let (d2, _) ← grab12 ['日'] r3
      some (m, d1, d2)
    else none
  | [] => none

/-- `(\d{1,2})月(\d{1,2})日[〜～\-](\d{1,2})月(\d{1,2})日` at one position
(the cross-month range pattern of `parseKabukiDateRange`). -/
def matchCrossRangeAt (l : List Char) :
    Option (List Char × List Char × List Char × List Char) := do
  let (m1, r1) ← grab12 ['月'] l
  let (d1, r2) ← grab12 ['日'] r1
  match r2 with
  | s :: r3 =>
    if rangeSeps.contains s then do
      let (m2, r4) ← grab12 ['月'] r3
      let (d2, _) ← grab12 ['日'] r4
      some (m1, d1, m2, d2)
    else none
  | [] => none

/-! ## Date normalizers -/

/-- `month.padStart(2, "0")` on a captured digit string (length 1 or 2 here). -/
def pad2 (l : List Char) : List Char := if l.length = 1 then '0' :: l else l

/-- `` `${y}-${m.padStart(2, "0")}-${d.padStart(2, "0")}` `` where `m`, `d` are
captured digit strings. -/
def fmtYMD (y : String) (m d : List Char) : String :=
  y ++ "-" ++ ⟨pad2 m⟩ ++ "-" ++ ⟨pad2 d⟩

/-- `TicketPiaScraper.parseJapaneseDate` (src/scrapers/ticket-pia.ts), with the
clock passed in: `currentYear` is `now.getFullYear()`, `currentMonth` is
`now.getMonth() + 1`. -/
def ticketPiaParseJapaneseDate (currentYear currentMonth : Nat) (dateStr : String) :
    Option String :=
  if dateStr = "" then none
  else
    match scanP matchFullDateAt dateStr.data with
    | some (y, m, d) => some (fmtYMD ⟨y⟩ m d)
    | none =>
      match scanP (matchShortAt ['/']) dateStr.data with
      | some (m, d) =>
        let year := if digitsToNat m < currentMonth then currentYear + 1 else currentYear
        some (fmtYMD (natToStr year) m d)
      | none => none

/-- `NHKSymphonyScraper.parseJapaneseDate` (src/scrapers/nhk-symphony.ts). -/
def nhkParseJapaneseDate (currentYear currentMonth : Nat) (dateStr : String) :
    Option String :=
  if dateStr = "" then none
  else
    match scanP matchFullDateAt dateStr.data with
    | some (y, m, d) => some (fmtYMD ⟨y⟩ m d)
    | none =>
      match scanP matchMonthDayAt dateStr.data with
      | some (m, d) =>
        let year := if digitsToNat m < currentMonth then currentYear + 1 else currentYear
        some (fmtYMD (natToStr year) m d)
      | none => none

/-- `BillboardLiveScraper.parseDateStr` (src/scrapers/billboard-live.ts). -/
def billboardParseDateStr (currentYear currentMonth : Nat) (dateStr : String) :
    Option String :=
  if dateStr = "" then none
  else
    match scanP matchFullDottedAt dateStr.data with
    | some (y, m, d) => some (fmtYMD ⟨y⟩ m d)
    | none =>
      match scanP (matchShortAt ['.', '/']) dateStr.data with
      | some (m, d) =>
        let year := if digitsToNat m < currentMonth then currentYear + 1 else currentYear
        some (fmtYMD (natToStr year) m d)
      | none =>
        match scanP matchMonthDayAt dateStr.data with
        | some (m, d) =>
          let year := if digitsToNat m < currentMonth then currentYear + 1 else currentYear
          some (fmtYMD (natToStr year) m d)
        | none => none

/-- A start date plus an optional end date, the result shape of
`parseKabukiDateRange` (`{ start, end }`). -/
structure DateRange where
  start : String
  stop : Option String
deriving DecidableEq, Repr

/-- `KabukiBitoScraper.parseKabukiDateRange` (src/scrapers/kabuki-bito.ts):
the same-month range pattern is tried first, then the cross-month range, then a
single `M月D日`; otherwise the fallback is `today` (`now.toISOString().split("T")[0]`).
`currentYear` is `now.getFullYear()`. -/
def parseKabukiDateRange (currentYear : Nat) (today : String) (dateStr : String) : DateRange :=
  match scanP matchSameRangeAt dateStr.data with
  | some (m, d1, d2) =>
    { start := fmtYMD (natToStr currentYear) m d1
      stop := some (fmtYMD (natToStr currentYear) m d2) }
  | none =>
    match scanP matchCrossRangeAt dateStr.data with
    | some (m1, d1, m2, d2) =>
      let endYear := if digitsToNat m2 < digitsToNat m1 then currentYear + 1 else currentYear
      { start := fmtYMD (natToStr currentYear) m1 d1
        stop := some (fmtYMD (natToStr endYear) m2 d2) }
    | none =>
      match scanP matchMonthDayAt dateStr.data with
      | some (m, d) =>
        { start := fmtYMD (natToStr currentYear) m d, stop := none }
      | none => { start := today, stop := none }

/-! ## Price normalizers -/

/-- First element of a nonempty list seeded fold (`Math.min(...prices)`). -/
def listMin (p : Nat) (ps : List Nat) : Nat := ps.foldl Nat.min p

/-- `Math.max(...prices)`. -/
def listMax (p : Nat) (ps : List Nat) : Nat := ps.foldl Nat.max p

/-- `TicketPiaScraper.parsePriceRange` (src/scrapers/ticket-pia.ts): strip
commas, extract all digit runs, `parseInt` each, keep values `>= 100`, return
`{min, max}`. -/
def parsePriceRange (priceStr : String) : Option Nat × Option Nat :=
  if priceStr = "" then (none, none)
  else
    let runs := digitRuns (stripChars [','] priceStr.data)
    if runs.isEmpty then (none, none)
    else
      let prices := (runs.map digitsToNat).filter (fun n => 100 ≤ n)
      match prices with
      | [] => (none, none)
      | [p] => (some p, some p)
      | p :: ps => (some (listMin p ps), some (listMax p ps))

/-- `BillboardLiveScraper.parsePrices` (src/scrapers/billboard-live.ts): strip
yen signs and commas, extract digit runs, keep values in the 1000–50000 band. -/
def billboardParsePrices (priceStr : String) : Option Nat × Option Nat :=
  if priceStr = "" then (none, none)
  else
    let runs := digitRuns (stripChars ['¥', '￥', ','] priceStr.data)
    if runs.isEmpty then (none, none)
    else
      let prices := (runs.map digitsToNat).filter (fun n => 1000 ≤ n && n ≤ 50000)
      match prices with
      | [] => (none, none)
      | [p] => (some p, some p)
      | p :: ps => (some (listMin p ps), some (listMax p ps))

/-- The price normalizer as the spec describes it: strip the separator and
currency characters in `strip`, extract all digit runs, discard values failing
the plausibility test, and return the numeric extremes of what remains —
`(none, none)` when nothing remains. -/
def specPriceRange (strip : List Char) (keep : Nat → Bool) (s : String) :
    Option Nat × Option Nat :=
  match ((digitRuns (stripChars strip s.data)).map digitsToNat).filter keep with
  | [] => (none, none)
  | v :: vs => (some (listMin v vs), some (listMax v vs))

/-! ## The event record and candidate blocks

`ScrapedEvent` is the interface of src/scrapers/base.ts; nullable fields become
`Option`.  A `CandidateBlock` carries the text fields that the CSS-selector
layer (the external markup query surface) extracts from one candidate event
block; `""` stands for "no match" exactly as cheerio's `.text().trim()` does,
and attribute lookups that can be absent are `Option String`. -/

structure Event where
  id : String
  title_ja : String
  title_en : Option String
  description_ja : Option String
  description_en : Option String
  date_start : String
  date_end : Option String
  venue_name : String
  venue_address : Option String
  area : String
  category : String
  tags : List String
  price_min : Option Nat
  price_max : Option Nat
  source_url : String
  source_name : String
  image_url : Option String
deriving DecidableEq, Repr

structure CandidateBlock where
  title : String
  link : Option String
  dateText : String
  venueText : String
  priceText : String
  description : String
  imageUrl : Option String
deriving DecidableEq, Repr

/-- A fetched-and-parsed listing page: a transport error, or the candidate
blocks the selectors yield.  A `Fetch` maps each listing URL to its outcome. -/
abbrev PageResult := Except String (List CandidateBlock)

abbrev Fetch := String → PageResult

/-- Resolve a link against a base origin:
`link.startsWith("http") ? link : baseUrl + link`. -/
def resolveUrl (base link : String) : String :=
  if jsStartsWith "http" link then link else base ++ link

/-! ## TicketPiaScraper.scrape (src/scrapers/ticket-pia.ts) -/

def ticketPiaBase : String := "https://t.pia.jp"

/-- The `categories` table of fixed listing paths. -/
def ticketPiaCategories : List (String × String) :=
  [ ("/pia/events/music/", "concert"),
    ("/pia/events/classic/", "orchestra"),
    ("/pia/events/stage/", "theatre"),
    ("/pia/events/musical/", "musical"),
    ("/pia/events/rakugo/", "rakugo"),
    ("/pia/events/anime/", "anime") ]

/-- The body of the per-block callback in `TicketPiaScraper.scrape`: guard the
title, resolve the link, skip a duplicate URL, normalize fields, append. -/
def ticketPiaProcessBlock (cy cm : Nat) (today category : String)
    (events : List Event) (b : CandidateBlock) : List Event :=
  if b.title = "" ∨ b.title.length < 2 then events
  else
    match presentLink b.link with
    | none => events
    | some link =>
      let fullUrl := resolveUrl ticketPiaBase link
      if events.any (fun e => e.source_url == fullUrl) then events
      else
        let dateStart := (ticketPiaParseJapaneseDate cy cm b.dateText).getD today
        let prices := parsePriceRange b.priceText
        events ++ [{
          id := generateId "pia" fullUrl
          title_ja := b.title
          title_en := none
          description_ja := none
          description_en := none
          date_start := dateStart
          date_end := none
          venue_name := jsOr b.venueText "会場未定"
          venue_address := none
          area := detectArea (jsOr b.venueText b.title)
          category := category
          tags := [category, "tickets-available"]
          price_min := prices.1
          price_max := prices.2
          source_url := fullUrl
          source_name := "Ticket Pia"
          image_url := b.imageUrl }]

/-- The per-category loop of `TicketPiaScraper.scrape`: a transport failure on
one category page is caught (console-logged) and the loop continues. -/
def ticketPiaScrapeGo (cy cm : Nat) (today : String) (env : Fetch) :
    List (String × String) → List Event → List Event
  | [], events => events
  | (path, category) :: rest, events =>
    match env (ticketPiaBase ++ path) with
    | .error _ => ticketPiaScrapeGo cy cm today env rest events
    | .ok blocks =>
      ticketPiaScrapeGo cy cm today env rest
        (blocks.foldl (ticketPiaProcessBlock cy cm today category) events)

/-- `TicketPiaScraper.scrape`. -/
def ticketPiaScrape (cy cm : Nat) (today : String) (env : Fetch) : List Event :=
  ticketPiaScrapeGo cy cm today env ticketPiaCategories []

/-! ## KabukiBitoScraper.scrape (src/scrapers/kabuki-bito.ts) -/

def kabukiBase : String := "https://www.kabuki-bito.jp"

/-- The fixed venue-name → city dictionary of `detectKabukiArea`. -/
def kabukiVenues : List (String × String) :=
  [ ("歌舞伎座", "Tokyo"), ("新橋演舞場", "Tokyo"), ("国立劇場", "Tokyo"),
    ("明治座", "Tokyo"), ("浅草公会堂", "Tokyo"), ("南座", "Kyoto"),
    ("松竹座", "Osaka"), ("御園座", "Nagoya"), ("博多座", "Fukuoka") ]

/-- `KabukiBitoScraper.detectKabukiArea`: first dictionary entry whose venue
name occurs in the text, else generic `detectArea`. -/
def detectKabukiArea (venueText : String) : String :=
  match kabukiVenues.find? (fun p => containsStr p.1 venueText) with
  | some p => p.2
  | none => detectArea venueText

/-- Per-block body of the theaters-page pass of `KabukiBitoScraper.scrape`.
Note: this pass performs no duplicate check before appending. -/
def kabukiTheaterBlock (cy : Nat) (today : String)
    (events : List Event) (b : CandidateBlock) : List Event :=
  if b.title = "" then events
  else
    match presentLink b.link with
    | none => events
    | some link =>
      let fullUrl := resolveUrl kabukiBase link
      let dates := parseKabukiDateRange cy today b.dateText
      events ++ [{
        id := generateId "kabuki" fullUrl
        title_ja := b.title
        title_en := none
        description_ja := none
        description_en := none
        date_start := dates.start
        date_end := dates.stop
        venue_name := jsOr b.venueText "歌舞伎座"
        venue_address := none
        area := detectKabukiArea b.venueText
        category := "kabuki"
        tags := ["traditional", "kabuki", "theatre"]
        price_min := parsePrice b.priceText
        price_max := none
        source_url := fullUrl
        source_name := "Kabuki-bito"
        image_url := b.imageUrl }]

/-- Per-block body of the schedule-page pass of `KabukiBitoScraper.scrape`.
This pass skips a block whose title matches an already-emitted event. -/
def kabukiScheduleBlock (cy : Nat) (today : String)
    (events : List Event) (b : CandidateBlock) : List Event :=
  if b.title = "" ∨ b.title.length < 3 then events
  else
    let fullUrl :=
      match presentLink b.link with
      | some link => resolveUrl kabukiBase link
      | none => kabukiBase ++ "/schedule/"
    if events.any (fun e => e.title_ja == b.title) then events
    else
      let dates := parseKabukiDateRange cy today b.dateText
      events ++ [{
        id := generateId "kabuki" (fullUrl ++ b.title)
        title_ja := b.title
        title_en := none
        description_ja := none
        description_en := none
        date_start := dates.start
        date_end := dates.stop
        venue_name := jsOr b.venueText "歌舞伎座"
        venue_address := none
        area := detectKabukiArea b.venueText
        category := "kabuki"
        tags := ["traditional", "kabuki", "theatre"]
        price_min := none
        price_max := none
        source_url := fullUrl
        source_name := "Kabuki-bito"
        image_url := none }]

/-- `KabukiBitoScraper.scrape`: the theaters page, then the schedule page; a
failure of either fetch is caught and that pass contributes nothing. -/
def kabukiScrape (cy : Nat) (today : String)
    (theaters schedule : PageResult) : List Event :=
  let afterTheaters :=
    match theaters with
    | .ok bs => bs.foldl (kabukiTheaterBlock cy today) []
    | .error _ => []
  match schedule with
  | .ok bs => bs.foldl (kabukiScheduleBlock cy today) afterTheaters
  | .error _ => afterTheaters

/-! ## NHKSymphonyScraper.scrape (src/scrapers/nhk-symphony.ts) -/

def nhkBase : String := "https://www.nhkso.or.jp"

/-- `NHKSymphonyScraper.titlesMatch`: do the two titles share a digit run?
(The runs are compared as strings.) -/
def titlesMatch (ja en : String) : Bool :=
  (digitRuns ja.data).any (fun n => (digitRuns en.data).contains n)

/-- Per-block body of the main concert-page pass of `NHKSymphonyScraper.scrape`.
The duplicate check requires both the URL and the title to match. -/
def nhkMainBlock (cy cm : Nat) (today : String)
    (events : List Event) (b : CandidateBlock) : List Event :=
  if b.title = "" ∨ b.title.length < 3 then events
  else
    let fullUrl :=
      match presentLink b.link with
      | some link => resolveUrl nhkBase link
      | none => nhkBase ++ "/concert/"
    if events.any (fun e => e.source_url == fullUrl && e.title_ja == b.title) then events
    else
      let dateStart := (nhkParseJapaneseDate cy cm b.dateText).getD today
      events ++ [{
        id := generateId "nhkso" (fullUrl ++ b.title)
        title_ja := b.title
        title_en := none
        description_ja := strOrNull b.description
        description_en := none
        date_start := dateStart
        date_end := none
        venue_name := jsOr b.venueText "NHKホール"
        venue_address := some "東京都渋谷区神南2-2-1"
        area := "Tokyo"
        category := "orchestra"
        tags := ["classical", "orchestra", "symphony"]
        price_min := some 5000
        price_max := some 15000
        source_url := fullUrl
        source_name := "NHK Symphony"
        image_url := none }]

/-- Replace the first element satisfying `p` by its image under `f`
(the in-place mutation of the record that `Array.prototype.find` returned). -/
def updateFirst (p : Event → Bool) (f : Event → Event) : List Event → List Event
  | [] => []
  | e :: tl => if p e then f e :: tl else e :: updateFirst p f tl

/-- Per-block body of the English-page pass of `NHKSymphonyScraper.scrape`:
back-fill `title_en` of the first event matching by URL or by `titlesMatch`,
when that event's `title_en` is still unset. -/
def nhkEnBlock (events : List Event) (b : CandidateBlock) : List Event :=
  if b.title = "" then events
  else
    let fullUrl :=
      match presentLink b.link with
      | some link => resolveUrl nhkBase link
      | none => nhkBase ++ "/en/concert/"
    updateFirst
      (fun e => e.source_url == fullUrl || titlesMatch e.title_ja b.title)
      (fun e => if optFalsy e.title_en then { e with title_en := some b.title } else e)
      events

/-- `NHKSymphonyScraper.scrape`: the main concert page, then the English page
(which only back-fills titles); a failed main fetch yields the empty list, a
failed English fetch leaves the main results untouched. -/
def nhkScrape (cy cm : Nat) (today : String)
    (main : PageResult) (en : PageResult) : List Event :=
  match main with
  | .error _ => []
  | .ok bs =>
    let events := bs.foldl (nhkMainBlock cy cm today) []
    match en with
    | .error _ => events
    | .ok ebs => ebs.foldl nhkEnBlock events

/-! ## JapanTravelScraper.scrape (src/scrapers/japan-travel.ts)

The base-class `parseDate` delegates to JavaScript's locale-dependent
`new Date(dateStr)`, an environment capability; it is passed in abstractly as
`pd`.  The main listing page is fetched outside any try/catch, so its transport
failure propagates out of `scrape()` — hence the `Except` result. -/

def jtBase : String := "https://en.japantravel.com"

/-- `region.charAt(0).toUpperCase() + region.slice(1)`. -/
def capitalize (s : String) : String :=
  match s.data with
  | [] => ""
  | c :: tl => ⟨upperChar c :: tl⟩

/-- Per-block body of the main events-page pass of `JapanTravelScraper.scrape`
(no duplicate check in this pass). -/
def jtMainBlock (pd : String → Option String) (today : String)
    (events : List Event) (b : CandidateBlock) : List Event :=
  if b.title = "" then events
  else
    match presentLink b.link with
    | none => events
    | some link =>
      let fullUrl := resolveUrl jtBase link
      let area := detectArea (jsOr b.venueText b.title)
      events ++ [{
        id := generateId "jt" fullUrl
        title_ja := b.title
        title_en := some b.title
        description_ja := strOrNull b.description
        description_en := strOrNull b.description
        date_start := ((pd b.dateText).getD today)
        date_end := none
        venue_name := jsOr b.venueText area
        venue_address := none
        area := area
        category := detectCategory (b.title ++ " " ++ b.description)
        tags := ["tourist-friendly", "english-info"]
        price_min := none
        price_max := none
        source_url := fullUrl
        source_name := "Japan Travel"
        image_url := b.imageUrl }]

/-- Per-block body of a regional-page pass of `JapanTravelScraper.scrape`
(this pass does skip blocks whose URL was already emitted). -/
def jtRegionBlock (pd : String → Option String) (today region : String)
    (events : List Event) (b : CandidateBlock) : List Event :=
  if b.title = "" then events
  else
    match presentLink b.link with
    | none => events
    | some link =>
      let fullUrl := resolveUrl jtBase link
      if events.any (fun e => e.source_url == fullUrl) then events
      else
        events ++ [{
          id := generateId "jt" fullUrl
          title_ja := b.title
          title_en := some b.title
          description_ja := strOrNull b.description
          description_en := strOrNull b.description
          date_start := ((pd b.dateText).getD today)
          date_end := none
          venue_name := capitalize region
          venue_address := none
          area := capitalize region
          category := detectCategory (b.title ++ " " ++ b.description)
          tags := ["tourist-friendly", "english-info"]
          price_min := none
          price_max := none
          source_url := fullUrl
          source_name := "Japan Travel"
          image_url := b.imageUrl }]

def jtRegions : List String := ["tokyo", "osaka", "kyoto"]

/-- `JapanTravelScraper.scrape`: the unguarded main-page fetch, then the three
regional pages each inside its own try/catch. -/
def jtScrape (pd : String → Option String) (today : String) (env : Fetch) :
    Except String (List Event) :=
  match env (jtBase ++ "/events") with
  | .error e => .error e
  | .ok bs =>
    let mainEvents := bs.foldl (jtMainBlock pd today) []
    .ok (jtRegions.foldl
      (fun evs region =>
        match env (jtBase ++ "/" ++ region ++ "/events") with
        | .error _ => evs
        | .ok rbs => rbs.foldl (jtRegionBlock pd today region) evs)
      mainEvents)

/-! ## TokyoArtBeatScraper.scrape (src/scrapers/tokyo-art-beat.ts)

`parseExhibitionDates` delegates part of its work to JavaScript's
locale/timezone-dependent `Date` constructor and `toISOString`, so it is passed
in abstractly as `pex : String → String × Option String` (start, end).  The two
listing pages are processed in the order of the `urls` array: the English page
first, then the default-language page. -/

def tabBase : String := "https://www.tokyoartbeat.com"

/-- Per-block body of `TokyoArtBeatScraper.scrape`.  A block matching an
already-emitted event by URL or by either title is skipped, and — only during
the English pass — the first event with the same URL has its missing `title_en`
back-filled in place. -/
def tabProcessBlock (pex : String → String × Option String) (isEnglish : Bool)
    (events : List Event) (b : CandidateBlock) : List Event :=
  if b.title = "" then events
  else
    match presentLink b.link with
    | none => events
    | some link =>
      let fullUrl := resolveUrl tabBase link
      if events.any (fun e =>
          e.source_url == fullUrl || e.title_ja == b.title || e.title_en == some b.title) then
        if isEnglish then
          updateFirst (fun e => e.source_url == fullUrl)
            (fun e => if optFalsy e.title_en then { e with title_en := some b.title } else e)
            events
        else events
      else
        let dates := pex b.dateText
        events ++ [{
          id := generateId "tab" fullUrl
          title_ja := if isEnglish then b.title else b.title
          title_en := if isEnglish then some b.title else none
          description_ja := if isEnglish then none else strOrNull b.description
          description_en := if isEnglish then strOrNull b.description else none
          date_start := dates.1
          date_end := dates.2
          venue_name := jsOr b.venueText "Gallery"
          venue_address := none
          area := detectArea (jsOr b.venueText b.title)
          category := "art"
          tags := ["art", "exhibition", "museum"]
          price_min := none
          price_max := none
          source_url := fullUrl
          source_name := "Tokyo Art Beat"
          image_url := b.imageUrl }]

/-- One listing page of `TokyoArtBeatScraper.scrape`. -/
def tabProcessPage (pex : String → String × Option String) (isEnglish : Bool)
    (blocks : List CandidateBlock) (events : List Event) : List Event :=
  blocks.foldl (tabProcessBlock pex isEnglish) events

/-- `TokyoArtBeatScraper.scrape`: the `/en/events` page, then the `/events`
page; a failed fetch of either page contributes nothing. -/
def tabScrape (pex : String → String × Option String)
    (enPage jaPage : PageResult) : List Event :=
  let afterEn :=
    match enPage with
    | .ok bs => tabProcessPage pex true bs []
    | .error _ => []
  match jaPage with
  | .ok bs => tabProcessPage pex false bs afterEn
  | .error _ => afterEn

/-! ## Orchestrator (src/scrapers/index.ts) -/

/-- A per-source run outcome (`ScraperResult`); wall-clock duration is outside
the model and recorded as `0`. -/
structure ScraperResult where
  source : String
  events : List Event
  errors : List String
  duration_ms : Nat
deriving DecidableEq, Repr

/-- JavaScript `\s` for the characters that can occur in scraper names. -/
def isWsChar (c : Char) : Bool :=
  c = ' ' || c = '\t' || c = '\n' || c = '\r' || c = '\x0b' || c = '\x0c'

/-- Worker for `s.replace(/\s+/g, "-")`: `prevWs` records whether the previous
character was part of a whitespace run already replaced. -/
def collapseWsGo : Bool → List Char → List Char
  | _, [] => []
  | prevWs, c :: tl =>
    if isWsChar c then
      (if prevWs then [] else ['-']) ++ collapseWsGo true tl
    else c :: collapseWsGo false tl

/-- `name.toLowerCase().replace(/\s+/g, "-")`: the source-key convention. -/
def scraperKey (name : String) : String := ⟨collapseWsGo false (lowerStr name).data⟩

/-- The display names of the extractors registered in the `scrapers` array of
src/scrapers/index.ts. -/
def scraperNames : List String :=
  ["Tokyo Cheapo", "Japan Travel", "Ticket Pia", "Kabuki-bito", "Tokyo Art Beat"]

/-- `runScraper(scraperName)`: find the registered scraper whose key equals the
lower-cased request, else return the zero-event outcome with one error.  The
found branch (running the scraper and optionally persisting) is abstracted by
`runOf`. -/
def runScraperModel (runOf : String → ScraperResult) (scraperName : String) : ScraperResult :=
  match scraperNames.find? (fun n => scraperKey n == lowerStr scraperName) with
  | some n => runOf n
  | none =>
    { source := scraperName
      events := []
      errors := ["Scraper not found: " ++ scraperName]
      duration_ms := 0 }

/-- `BaseScraper.run()` on a scraper whose `scrape()` either returns events or
throws: the thrown message becomes the single error of a zero-event outcome. -/
def runWrap (name : String) (r : Except String (List Event)) : ScraperResult :=
  match r with
  | .ok evs => { source := name, events := evs, errors := [], duration_ms := 0 }
  | .error e => { source := name, events := [], errors := [e], duration_ms := 0 }

/-! ## Statement-side definitions -/

/-- The documented invariant on an event's price pair: both absent, or both
present with `min ≤ max`. -/
def priceFieldsOk : Option Nat × Option Nat → Bool
  | (none, none) => true
  | (some a, some b) => a ≤ b
  | _ => false

/-- A well-formed one-or-two-digit capture segment. -/
def dsOk (l : List Char) : Bool := (l.length = 1 || l.length = 2) && l.all isDigitChar

/-- The canonical same-month range text `M月D1日〜D2日`. -/
def sameRangeStr (m d1 d2 : Nat) : String :=
  natToStr m ++ "月" ++ natToStr d1 ++ "日〜" ++ natToStr d2 ++ "日"

/-- The canonical cross-month range text `M1月D1日〜M2月D2日`. -/
def crossRangeStr (m1 d1 m2 d2 : Nat) : String :=
  natToStr m1 ++ "月" ++ natToStr d1 ++ "日〜" ++ natToStr m2 ++ "月" ++ natToStr d2 ++ "日"

/-- Bounded check that `natToStr` yields a well-formed digit segment for
`1 ≤ n ≤ 99`. -/
def natToStrOkChk : Bool := (List.range 99).all (fun k => dsOk (natToStr (k + 1)).data)

/-- Bounded check that `digitsToNat` inverts `natToStr` for `1 ≤ n ≤ 99`. -/
def natRoundChk : Bool :=
  (List.range 99).all (fun k => digitsToNat (natToStr (k + 1)).data == k + 1)

/-! # Theorems -/

/-! ## C10: id generation is deterministic -/

/-- Claim C10: id generation is deterministic — two calls of `generateId` with
the same (prefix, uniqueness string) pair yield the same id; the id depends on
nothing but its two arguments. -/
theorem claim_C10 (pref unique pref' unique' : String)
    (hp : pref = pref') (hu : unique = unique') :
    generateId pref unique = generateId pref' unique' := by
  rw [hp, hu]

/-- Witness for C10 at a concrete (prefix, URL) pair. -/
theorem claim_C10_witness :
    ("pia" = "pia" ∧ "https://t.pia.jp/e/1" = "https://t.pia.jp/e/1") ∧
      generateId "pia" "https://t.pia.jp/e/1" = generateId "pia" "https://t.pia.jp/e/1" :=
  ⟨⟨rfl, rfl⟩, claim_C10 "pia" "https://t.pia.jp/e/1" "pia" "https://t.pia.jp/e/1" rfl rfl⟩

/-! ## C9: unknown source key -/

/-- Claim C9: for every source key matching no registered extractor under the
lowercase-hyphenated naming convention, the orchestrator's single-source entry
point returns an outcome with zero events and exactly one descriptive error. -/
theorem claim_C9 (runOf : String → ScraperResult) (key : String)
    (h : ∀ n ∈ scraperNames, scraperKey n ≠ lowerStr key) :
    runScraperModel runOf key =
      { source := key, events := [], errors := ["Scraper not found: " ++ key],
        duration_ms := 0 } := by
  unfold runScraperModel
  have hnone : scraperNames.find? (fun n => scraperKey n == lowerStr key) = none := by
    rw [List.find?_eq_none]
    intro n hn
    simpa using h n hn
  rw [hnone]

/-- Witness for C9: `"nhk-symphony"` is not a registered key. -/
theorem claim_C9_witness :
    (∀ n ∈ scraperNames, scraperKey n ≠ lowerStr "nhk-symphony") ∧
      runScraperModel (fun n => { source := n, events := [], errors := [], duration_ms := 0 })
          "nhk-symphony" =
        { source := "nhk-symphony", events := [],
          errors := ["Scraper not found: " ++ "nhk-symphony"], duration_ms := 0 } :=
  ⟨by decide,
    claim_C9 (fun n => { source := n, events := [], errors := [], duration_ms := 0 })
      "nhk-symphony" (by decide)⟩

/-! ## Price lemmas (shared by C4 and C7) -/

theorem foldl_min_le (ps : List Nat) : ∀ p, ps.foldl Nat.min p ≤ p := by
  induction ps with
  | nil => intro p; exact Nat.le_refl p
  | cons x tl ih =>
    intro p
    exact Nat.le_trans (ih (Nat.min p x)) (Nat.min_le_left p x)

theorem le_foldl_max (ps : List Nat) : ∀ p, p ≤ ps.foldl Nat.max p := by
  induction ps with
  | nil => intro p; exact Nat.le_refl p
  | cons x tl ih =>
    intro p
    exact Nat.le_trans (Nat.le_max_left p x) (ih (Nat.max p x))

theorem listMin_le_listMax (p : Nat) (ps : List Nat) : listMin p ps ≤ listMax p ps :=
  Nat.le_trans (foldl_min_le ps p) (le_foldl_max ps p)

/-- The ticketing source's price normalizer is the spec-side algorithm with the
comma as the only stripped character and a plausibility floor of 100. -/
theorem parsePriceRange_eq_spec (s : String) :
    parsePriceRange s = specPriceRange [','] (fun n => 100 ≤ n) s := by
  unfold parsePriceRange specPriceRange
  by_cases hs : s = ""
  · subst hs; rfl
  · simp only [if_neg hs]
    cases hruns : digitRuns (stripChars [','] s.data) with
    | nil => simp [hruns]
    | cons r rs =>
      simp only [hruns, List.isEmpty_cons, if_neg]
      cases hp : ((r :: rs).map digitsToNat).filter (fun n => 100 ≤ n) with
      | nil => simp [hp]
      | cons p ps =>
        cases ps with
        | nil => simp [hp, listMin, listMax]
        | cons q qs => simp [hp]

/-- The venue-chain source's price normalizer is the spec-side algorithm with
yen signs and commas stripped and the 1000–50000 plausibility band. -/
theorem parsePrices_eq_spec (s : String) :
    billboardParsePrices s = specPriceRange ['¥', '￥', ','] (fun n => 1000 ≤ n && n ≤ 50000) s := by
  unfold billboardParsePrices specPriceRange
  by_cases hs : s = ""
  · subst hs; rfl
  · simp only [if_neg hs]
    cases hruns : digitRuns (stripChars ['¥', '￥', ','] s.data) with
    | nil => simp [hruns]
    | cons r rs =>
      simp only [hruns, List.isEmpty_cons, if_neg]
      cases hp : ((r :: rs).map digitsToNat).filter (fun n => 1000 ≤ n && n ≤ 50000) with
      | nil => simp [hp]
      | cons p ps =>
        cases ps with
        | nil => simp [hp, listMin, listMax]
        | cons q qs => simp [hp]

/-- Whatever it strips and filters, the spec-side price algorithm satisfies the
price-pair invariant. -/
theorem specPriceRange_ok (strip : List Char) (pl : Nat → Bool) (s : String) :
    priceFieldsOk (specPriceRange strip pl s) = true := by
  unfold specPriceRange
  cases hp : ((digitRuns (stripChars strip s.data)).map digitsToNat).filter pl with
  | nil => rfl
  | cons p ps =>
    simp [priceFieldsOk, listMin_le_listMax]

theorem parsePriceRange_ok (s : String) : priceFieldsOk (parsePriceRange s) = true := by
  rw [parsePriceRange_eq_spec]; exact specPriceRange_ok _ _ _

theorem parsePrices_ok (s : String) : priceFieldsOk (billboardParsePrices s) = true := by
  rw [parsePrices_eq_spec]; exact specPriceRange_ok _ _ _

/-! ## C7: the price-range normalizer -/

/-- Counterexample to C7 as stated: the ticketing source's normalizer does not
strip currency symbols — on `"5¥000"` it sees the digit runs `5` and `000`,
discards both as below the floor, and returns `(null, null)`, while the claimed
algorithm (strip commas *and* currency symbols, then extract runs) would merge
the digits into `5000` and return `{min: 5000, max: 5000}`. -/
theorem claim_C7_counterexample :
    parsePriceRange "5¥000" ≠ specPriceRange [',', '¥', '￥'] (fun n => 100 ≤ n) "5¥000" ∧
      parsePriceRange "5¥000" = (none, none) ∧
      specPriceRange [',', '¥', '￥'] (fun n => 100 ≤ n) "5¥000" = (some 5000, some 5000) := by
  refine ⟨?_, by decide, by decide⟩
  decide

/-- Amended C7: the venue-chain normalizer strips commas and yen signs before
extracting digit runs, while the ticketing normalizer strips only commas
(currency symbols merely delimit digit runs there); each then discards values
outside its plausibility band and returns the numeric extremes of the rest —
both null when none remain, min = max when exactly one remains. -/
theorem claim_C7_amended :
    (∀ s, parsePriceRange s = specPriceRange [','] (fun n => 100 ≤ n) s) ∧
      (∀ s, billboardParsePrices s =
        specPriceRange ['¥', '￥', ','] (fun n => 1000 ≤ n && n ≤ 50000) s) ∧
      parsePriceRange "¥5,000〜¥8,000" = (some 5000, some 8000) ∧
      billboardParsePrices "¥5,000〜¥8,000" = (some 5000, some 8000) ∧
      parsePriceRange "¥50" = (none, none) ∧
      billboardParsePrices "¥50" = (none, none) :=
  ⟨parsePriceRange_eq_spec, parsePrices_eq_spec,
    by decide, by decide, by decide, by decide⟩

/-! ## C4: the price-pair invariant on emitted events -/

/-- Membership in the output of one Ticket Pia block step: either the event was
already there, or its price pair comes from `parsePriceRange`. -/
theorem mem_pia_block {cy cm : Nat} {today cat : String} {evs : List Event}
    {b : CandidateBlock} {e : Event}
    (he : e ∈ ticketPiaProcessBlock cy cm today cat evs b) :
    e ∈ evs ∨ (e.price_min, e.price_max) = parsePriceRange b.priceText := by
  unfold ticketPiaProcessBlock at he
  split at he
  · exact Or.inl he
  · split at he
    · exact Or.inl he
    · dsimp only at he
      split at he
      · exact Or.inl he
      · rcases List.mem_append.mp he with h | h
        · exact Or.inl h
        · rcases List.mem_singleton.mp h with rfl
          exact Or.inr rfl

theorem pia_fold_price {cy cm : Nat} {today cat : String} :
    ∀ (blocks : List CandidateBlock) (evs : List Event),
      (∀ e ∈ evs, priceFieldsOk (e.price_min, e.price_max) = true) →
      ∀ e ∈ blocks.foldl (ticketPiaProcessBlock cy cm today cat) evs,
        priceFieldsOk (e.price_min, e.price_max) = true := by
  intro blocks
  induction blocks with
  | nil => intro evs h; simpa using h
  | cons b tl ih =>
    intro evs h e he
    refine ih _ ?_ e he
    intro e' he'
    rcases mem_pia_block he' with h' | h'
    · exact h e' h'
    · rw [h']; exact parsePriceRange_ok _

theorem pia_go_price {cy cm : Nat} {today : String} {env : Fetch} :
    ∀ (cats : List (String × String)) (evs : List Event),
      (∀ e ∈ evs, priceFieldsOk (e.price_min, e.price_max) = true) →
      ∀ e ∈ ticketPiaScrapeGo cy cm today env cats evs,
        priceFieldsOk (e.price_min, e.price_max) = true := by
  intro cats
  induction cats with
  | nil => intro evs h; simpa [ticketPiaScrapeGo] using h
  | cons pc tl ih =>
    intro evs h
    rcases pc with ⟨path, cat⟩
    unfold ticketPiaScrapeGo
    cases env (ticketPiaBase ++ path) with
    | error _ => exact ih evs h
    | ok blocks => exact ih _ (pia_fold_price blocks evs h)

/-- Counterexample to C4 as stated: the traditional-theatre source's theaters
pass fills `price_min` from `parsePrice` but always leaves `price_max` null, so
a block carrying the price text `"5,000円〜"` yields an event with
`price_min = 5000` and `price_max = null`. -/
theorem claim_C4_counterexample :
    ((kabukiScrape 2025 "2025-10-11"
        (.ok [{ title := "五月大歌舞伎", link := some "/play/1", dateText := "",
                venueText := "", priceText := "5,000円〜", description := "",
                imageUrl := none }])
        (.error "HTTP 404")).map (fun e => (e.price_min, e.price_max)))
        = [(some 5000, none)] ∧
      priceFieldsOk (some 5000, none) = false := by
  constructor
  · decide
  · rfl

/-- Amended C4: events whose prices come from `parsePriceRange` or
`parsePrices` satisfy the invariant — in particular every event of a Ticket Pia
run does — but the traditional-theatre theaters pass records only a minimum, so
its events can carry a non-null `price_min` with a null `price_max`. -/
theorem claim_C4_amended :
    (∀ s, priceFieldsOk (parsePriceRange s) = true) ∧
      (∀ s, priceFieldsOk (billboardParsePrices s) = true) ∧
      (∀ (cy cm : Nat) (today : String) (env : Fetch),
        ∀ e ∈ ticketPiaScrape cy cm today env,
          priceFieldsOk (e.price_min, e.price_max) = true) := by
  refine ⟨parsePriceRange_ok, parsePrices_ok, ?_⟩
  intro cy cm today env e he
  exact pia_go_price ticketPiaCategories [] (by intro e' h; cases h) e he

/-- Witness for C4 (amended): the Ticket Pia part at a concrete environment. -/
theorem claim_C4_witness :
    (∀ e ∈ ticketPiaScrape 2025 10 "2025-10-11"
        (fun _ => .ok [{ title := "コンサート", link := some "/e/1", dateText := "",
                         venueText := "", priceText := "¥3,000", description := "",
                         imageUrl := none }]),
      priceFieldsOk (e.price_min, e.price_max) = true) :=
  claim_C4_amended.2.2 2025 10 "2025-10-11" _

/-! ## C1: intra-run URL dedup -/

/-- The in-run URL-distinctness relation. -/
def UrlDistinct (a b : Event) : Prop := a.source_url ≠ b.source_url

/-- NHK's weaker in-run relation: no two events agree on both URL and title. -/
def UrlTitleDistinct (a b : Event) : Prop :=
  ¬(a.source_url = b.source_url ∧ a.title_ja = b.title_ja)

theorem pia_block_pairwise {cy cm : Nat} {today cat : String} {evs : List Event}
    {b : CandidateBlock} (h : List.Pairwise UrlDistinct evs) :
    List.Pairwise UrlDistinct (ticketPiaProcessBlock cy cm today cat evs b) := by
  unfold ticketPiaProcessBlock
  split
  · exact h
  · split
    · exact h
    · dsimp only
      split
      · exact h
      · next hany =>
        rw [List.pairwise_append]
        refine ⟨h, List.pairwise_singleton _ _, ?_⟩
        intro a ha x hx
        rcases List.mem_singleton.mp hx with rfl
        intro hurl
        exact hany (List.any_eq_true.mpr ⟨a, ha, by simpa using hurl⟩)

theorem pia_fold_pairwise {cy cm : Nat} {today cat : String} :
    ∀ (blocks : List CandidateBlock) (evs : List Event),
      List.Pairwise UrlDistinct evs →
      List.Pairwise UrlDistinct (blocks.foldl (ticketPiaProcessBlock cy cm today cat) evs) := by
  intro blocks
  induction blocks with
  | nil => intro evs h; simpa using h
  | cons b tl ih => intro evs h; exact ih _ (pia_block_pairwise h)

theorem pia_go_pairwise {cy cm : Nat} {today : String} {env : Fetch} :
    ∀ (cats : List (String × String)) (evs : List Event),
      List.Pairwise UrlDistinct evs →
      List.Pairwise UrlDistinct (ticketPiaScrapeGo cy cm today env cats evs) := by
  intro cats
  induction cats with
  | nil => intro evs h; simpa [ticketPiaScrapeGo] using h
  | cons pc tl ih =>
    intro evs h
    rcases pc with ⟨path, cat⟩
    unfold ticketPiaScrapeGo
    cases env (ticketPiaBase ++ path) with
    | error _ => exact ih evs h
    | ok blocks => exact ih _ (pia_fold_pairwise blocks evs h)

theorem nhk_main_block_pairwise {cy cm : Nat} {today : String} {evs : List Event}
    {b : CandidateBlock} (h : List.Pairwise UrlTitleDistinct evs) :
    List.Pairwise UrlTitleDistinct (nhkMainBlock cy cm today evs b) := by
  unfold nhkMainBlock
  split
  · exact h
  · dsimp only
    split
    · exact h
    · next hany =>
      rw [List.pairwise_append]
      refine ⟨h, List.pairwise_singleton _ _, ?_⟩
      intro a ha x hx
      rcases List.mem_singleton.mp hx with rfl
      rintro ⟨hurl, htitle⟩
      exact hany (List.any_eq_true.mpr ⟨a, ha, by simp [hurl, htitle]⟩)

/-- Elements of `updateFirst p f l` are elements of `l` or `f`-images of them. -/
theorem updateFirst_mem {p : Event → Bool} {f : Event → Event} :
    ∀ {l : List Event} {x : Event}, x ∈ updateFirst p f l →
      x ∈ l ∨ ∃ y ∈ l, x = f y := by
  intro l
  induction l with
  | nil => intro x hx; cases hx
  | cons e tl ih =>
    intro x hx
    unfold updateFirst at hx
    split at hx
    · rcases List.mem_cons.mp hx with rfl | h
      · exact Or.inr ⟨e, List.mem_cons_self _ _, rfl⟩
      · exact Or.inl (List.mem_cons_of_mem _ h)
    · rcases List.mem_cons.mp hx with rfl | h
      · exact Or.inl (List.mem_cons_self _ _)
      · rcases ih h with h' | ⟨y, hy, rfl⟩
        · exact Or.inl (List.mem_cons_of_mem _ h')
        · exact Or.inr ⟨y, List.mem_cons_of_mem _ hy, rfl⟩

/-- `updateFirst` preserves a pairwise relation that is invariant under `f` on
either side. -/
theorem updateFirst_pairwise {R : Event → Event → Prop} {p : Event → Bool}
    {f : Event → Event}
    (hfL : ∀ a b, R a b → R a (f b)) (hfR : ∀ a b, R a b → R (f a) b) :
    ∀ {l : List Event}, List.Pairwise R l → List.Pairwise R (updateFirst p f l) := by
  intro l
  induction l with
  | nil => intro _; exact List.Pairwise.nil
  | cons e tl ih =>
    intro h
    rcases List.pairwise_cons.mp h with ⟨he, htl⟩
    unfold updateFirst
    split
    · exact List.pairwise_cons.mpr ⟨fun x hx => hfR _ _ (he x hx), htl⟩
    · refine List.pairwise_cons.mpr ⟨?_, ih htl⟩
      intro x hx
      rcases updateFirst_mem hx with h' | ⟨y, hy, rfl⟩
      · exact he x h'
      · exact hfL _ _ (he y hy)

/-- The English-pass back-fill touches only `title_en`, so it preserves
`UrlTitleDistinct`. -/
theorem nhk_en_block_pairwise {evs : List Event} {b : CandidateBlock}
    (h : List.Pairwise UrlTitleDistinct evs) :
    List.Pairwise UrlTitleDistinct (nhkEnBlock evs b) := by
  unfold nhkEnBlock
  split
  · exact h
  · refine updateFirst_pairwise ?_ ?_ h <;>
      · intro a c hac
        unfold UrlTitleDistinct at hac ⊢
        split <;> simpa using hac

theorem nhk_en_fold_pairwise :
    ∀ (blocks : List CandidateBlock) (evs : List Event),
      List.Pairwise UrlTitleDistinct evs →
      List.Pairwise UrlTitleDistinct (blocks.foldl nhkEnBlock evs) := by
  intro blocks
  induction blocks with
  | nil => intro evs h; simpa using h
  | cons b tl ih => intro evs h; exact ih _ (nhk_en_block_pairwise h)

theorem nhk_main_fold_pairwise {cy cm : Nat} {today : String} :
    ∀ (blocks : List CandidateBlock) (evs : List Event),
      List.Pairwise UrlTitleDistinct evs →
      List.Pairwise UrlTitleDistinct (blocks.foldl (nhkMainBlock cy cm today) evs) := by
  intro blocks
  induction blocks with
  | nil => intro evs h; simpa using h
  | cons b tl ih => intro evs h; exact ih _ (nhk_main_block_pairwise h)

/-- Counterexample to C1 as stated: the traditional-theatre source's theaters
pass performs no duplicate check at all, so two candidate blocks resolving to
the same absolute URL each produce an event — the run's URL list is not
duplicate-free. -/
theorem claim_C1_counterexample :
    ((kabukiScrape 2025 "2025-10-11"
        (.ok [{ title := "十月大歌舞伎", link := some "/play/123", dateText := "1月2日〜26日",
                venueText := "歌舞伎座", priceText := "", description := "", imageUrl := none },
              { title := "十月大歌舞伎", link := some "/play/123", dateText := "1月2日〜26日",
                venueText := "歌舞伎座", priceText := "", description := "", imageUrl := none }])
        (.error "HTTP 404")).map (fun e => e.source_url))
      = ["https://www.kabuki-bito.jp/play/123", "https://www.kabuki-bito.jp/play/123"] ∧
    ¬ ((kabukiScrape 2025 "2025-10-11"
        (.ok [{ title := "十月大歌舞伎", link := some "/play/123", dateText := "1月2日〜26日",
                venueText := "歌舞伎座", priceText := "", description := "", imageUrl := none },
              { title := "十月大歌舞伎", link := some "/play/123", dateText := "1月2日〜26日",
                venueText := "歌舞伎座", priceText := "", description := "", imageUrl := none }])
        (.error "HTTP 404")).map (fun e => e.source_url)).Nodup := by
  constructor
  · decide
  · decide

/-- Amended C1: URL-dedup is per-source.  A Ticket Pia run never emits two
events with the same `source_url`; an NHK Symphony run skips a block only when
both the URL and the title match an earlier event, so it guarantees only that
no two events agree on both; the traditional-theatre theaters pass does not
dedup at all (its schedule pass dedups by title), so a Kabuki-bito run may
contain two events with the same `source_url`. -/
theorem claim_C1_amended :
    (∀ (cy cm : Nat) (today : String) (env : Fetch),
        ((ticketPiaScrape cy cm today env).map (fun e => e.source_url)).Nodup) ∧
      (∀ (cy cm : Nat) (today : String) (main en : PageResult),
        List.Pairwise UrlTitleDistinct (nhkScrape cy cm today main en)) := by
  constructor
  · intro cy cm today env
    have h : List.Pairwise UrlDistinct (ticketPiaScrape cy cm today env) :=
      pia_go_pairwise ticketPiaCategories [] List.Pairwise.nil
    unfold List.Nodup
    rw [List.pairwise_map]
    exact h.imp (fun hab => hab)
  · intro cy cm today main en
    unfold nhkScrape
    cases main with
    | error _ => exact List.Pairwise.nil
    | ok bs =>
      dsimp only
      cases en with
      | error _ => exact nhk_main_fold_pairwise bs [] List.Pairwise.nil
      | ok ebs => exact nhk_en_fold_pairwise ebs _ (nhk_main_fold_pairwise bs [] List.Pairwise.nil)

/-! ## C3: transport failures on one listing page -/

/-- A failed category page of Ticket Pia contributes exactly as much as an
empty one: the rest of the category loop is unaffected. -/
theorem pia_go_update {cy cm : Nat} {today : String} {env : Fetch} {u e}
    (hu : env u = .error e) :
    ∀ (cats : List (String × String)) (evs : List Event),
      ticketPiaScrapeGo cy cm today env cats evs =
        ticketPiaScrapeGo cy cm today (Function.update env u (.ok [])) cats evs := by
  intro cats
  induction cats with
  | nil => intro evs; rfl
  | cons pc tl ih =>
    intro evs
    rcases pc with ⟨path, cat⟩
    unfold ticketPiaScrapeGo
    by_cases hpu : ticketPiaBase ++ path = u
    · rw [hpu, hu, Function.update_same]
      exact ih evs
    · rw [Function.update_noteq hpu]
      cases henv : env (ticketPiaBase ++ path) with
      | error _ => exact ih evs
      | ok blocks => exact ih _

/-- Counterexample to C3 as stated: Japan Travel fetches its main events page
outside any try/catch, so a transport failure there aborts the whole extractor
even though a regional page holds a perfectly scrapable event; the run wrapper
turns this into a zero-event outcome. -/
theorem claim_C3_counterexample :
    jtScrape (fun _ => none) "2025-10-11"
        (fun url => if url = jtBase ++ "/events" then .error "HTTP 500"
          else .ok [{ title := "Autumn Festival", link := some "/event/9", dateText := "",
                      venueText := "", priceText := "", description := "", imageUrl := none }])
      = .error "HTTP 500" ∧
    runWrap "Japan Travel"
        (jtScrape (fun _ => none) "2025-10-11"
          (fun url => if url = jtBase ++ "/events" then .error "HTTP 500"
            else .ok [{ title := "Autumn Festival", link := some "/event/9", dateText := "",
                        venueText := "", priceText := "", description := "", imageUrl := none }]))
      = { source := "Japan Travel", events := [], errors := ["HTTP 500"], duration_ms := 0 } ∧
    jtRegionBlock (fun _ => none) "2025-10-11" "tokyo" []
        { title := "Autumn Festival", link := some "/event/9", dateText := "",
          venueText := "", priceText := "", description := "", imageUrl := none } ≠ [] := by
  refine ⟨rfl, by decide, by decide⟩

/-- Amended C3: per-page failure isolation is per-source.  For Ticket Pia, a
transport failure on any one category page is caught and the remaining pages
are processed exactly as if the failed page were empty.  For Japan Travel the
same holds for each regional page, but a failure of the main events page
escapes `scrape()`; the `run()` wrapper records it as the outcome's single
error with zero events. -/
theorem claim_C3_amended :
    (∀ (cy cm : Nat) (today : String) (env : Fetch) (u e), env u = .error e →
        ticketPiaScrape cy cm today env =
          ticketPiaScrape cy cm today (Function.update env u (.ok []))) ∧
      (∀ (pd : String → Option String) (today : String) (env : Fetch) (region : String) (e),
        region ∈ jtRegions →
        env (jtBase ++ "/" ++ region ++ "/events") = .error e →
        jtScrape pd today env =
          jtScrape pd today
            (Function.update env (jtBase ++ "/" ++ region ++ "/events") (.ok []))) ∧
      (∀ (pd : String → Option String) (today : String) (env : Fetch) (e),
        env (jtBase ++ "/events") = .error e →
        jtScrape pd today env = .error e ∧
          runWrap "Japan Travel" (jtScrape pd today env) =
            { source := "Japan Travel", events := [], errors := [e], duration_ms := 0 }) := by
  refine ⟨?_, ?_, ?_⟩
  · intro cy cm today env u e hu
    exact pia_go_update hu ticketPiaCategories []
  · intro pd today env region e hmem hfail
    have hreg : region = "tokyo" ∨ region = "osaka" ∨ region = "kyoto" := by
      simpa [jtRegions] using hmem
    rcases hreg with rfl | rfl | rfl <;>
    · simp only [jtScrape, jtRegions, List.foldl]
      rw [Function.update_noteq (by decide)]
      cases henv : env (jtBase ++ "/events") with
      | error _ => rfl
      | ok bs =>
        rw [hfail, Function.update_same,
          Function.update_noteq (by decide), Function.update_noteq (by decide)]
        rfl
  · intro pd today env e hfail
    constructor
    · unfold jtScrape
      rw [hfail]
    · unfold runWrap jtScrape
      rw [hfail]

/-- Witness for C3 (amended) at concrete environments. -/
theorem claim_C3_witness :
    ((fun url => if url = ticketPiaBase ++ "/pia/events/music/"
        then (.error "HTTP 503" : PageResult) else .ok []) (ticketPiaBase ++ "/pia/events/music/")
      = .error "HTTP 503" ∧
     "tokyo" ∈ jtRegions ∧
     (fun url => if url = jtBase ++ "/tokyo/events"
        then (.error "HTTP 500" : PageResult) else .ok []) (jtBase ++ "/" ++ "tokyo" ++ "/events")
      = .error "HTTP 500") ∧
    ticketPiaScrape 2025 10 "2025-10-11"
        (fun url => if url = ticketPiaBase ++ "/pia/events/music/"
          then .error "HTTP 503" else .ok []) =
      ticketPiaScrape 2025 10 "2025-10-11"
        (Function.update
          (fun url => if url = ticketPiaBase ++ "/pia/events/music/"
            then .error "HTTP 503" else .ok [])
          (ticketPiaBase ++ "/pia/events/music/") (.ok [])) ∧
    jtScrape (fun _ => none) "2025-10-11"
        (fun url => if url = jtBase ++ "/tokyo/events"
          then .error "HTTP 500" else .ok []) =
      jtScrape (fun _ => none) "2025-10-11"
        (Function.update
          (fun url => if url = jtBase ++ "/tokyo/events"
            then .error "HTTP 500" else .ok [])
          (jtBase ++ "/" ++ "tokyo" ++ "/events") (.ok [])) :=
  ⟨⟨rfl, by decide, rfl⟩,
    claim_C3_amended.1 2025 10 "2025-10-11" _ _ "HTTP 503" rfl,
    claim_C3_amended.2.1 (fun _ => none) "2025-10-11" _ "tokyo" "HTTP 500"
      (by decide) rfl⟩

/-! ## C2: the bilingual merge of Tokyo Art Beat -/

/-- Appending pass of `tabProcessBlock` on an empty event list (the first
block of the default-language page). -/
theorem tab_block_append (pex : String → String × Option String) (b : CandidateBlock)
    (h1 : b.title ≠ "") {l : String} (hl : presentLink b.link = some l) :
    tabProcessBlock pex false [] b =
      [{ id := generateId "tab" (resolveUrl tabBase l)
         title_ja := b.title
         title_en := none
         description_ja := strOrNull b.description
         description_en := none
         date_start := (pex b.dateText).1
         date_end := (pex b.dateText).2
         venue_name := jsOr b.venueText "Gallery"
         venue_address := none
         area := detectArea (jsOr b.venueText b.title)
         category := "art"
         tags := ["art", "exhibition", "museum"]
         price_min := none
         price_max := none
         source_url := resolveUrl tabBase l
         source_name := "Tokyo Art Beat"
         image_url := b.imageUrl }] := by
  unfold tabProcessBlock
  rw [if_neg h1, hl]
  rfl

/-- Back-fill pass of `tabProcessBlock`: an English block whose URL matches the
single existing event updates that event's missing `title_en` in place. -/
theorem tab_block_backfill (pex : String → String × Option String) (b : CandidateBlock)
    (h2 : b.title ≠ "") {l : String} {r : Event} (hl : presentLink b.link = some l)
    (hurl : r.source_url = resolveUrl tabBase l) (hen : r.title_en = none) :
    tabProcessBlock pex true [r] b = [{ r with title_en := some b.title }] := by
  unfold tabProcessBlock
  rw [if_neg h2, hl]
  simp [updateFirst, optFalsy, hurl, hen]

theorem updateFirst_length (p : Event → Bool) (f : Event → Event) :
    ∀ l : List Event, (updateFirst p f l).length = l.length := by
  intro l
  induction l with
  | nil => rfl
  | cons e tl ih =>
    unfold updateFirst
    split
    · rfl
    · simpa using ih

/-- Positionally, `updateFirst` leaves every element alone or replaces it by
its `f`-image. -/
theorem updateFirst_getElem? (p : Event → Bool) (f : Event → Event) :
    ∀ {l : List Event} {i : Nat} {e : Event}, l[i]? = some e →
      ∃ e', (updateFirst p f l)[i]? = some e' ∧ (e' = e ∨ e' = f e) := by
  intro l
  induction l with
  | nil => intro i e h; simp at h
  | cons a tl ih =>
    intro i e h
    unfold updateFirst
    split
    · cases i with
      | zero =>
        simp only [List.getElem?_cons_zero, Option.some.injEq] at h
        exact ⟨f a, by simp, Or.inr (by rw [h])⟩
      | succ j =>
        simp only [List.getElem?_cons_succ] at h ⊢
        exact ⟨e, h, Or.inl rfl⟩
    · cases i with
      | zero =>
        simp only [List.getElem?_cons_zero, Option.some.injEq] at h
        exact ⟨a, by simp, Or.inl h⟩
      | succ j =>
        simp only [List.getElem?_cons_succ] at h ⊢
        exact ih h

/-- Claim C2: processing a default-language page and then an English page whose
block resolves to the same canonical URL yields exactly one record with both
titles populated — the English pass back-fills `title_en` in place.  Moreover a
block step never removes events (length grows by at most one) and the only way
it changes a previously appended event is the English pass setting a missing
`title_en`. -/
theorem claim_C2 :
    (∀ (pex : String → String × Option String) (b1 b2 : CandidateBlock) (l1 l2 : String),
      b1.title ≠ "" → b2.title ≠ "" →
      presentLink b1.link = some l1 → presentLink b2.link = some l2 →
      resolveUrl tabBase l2 = resolveUrl tabBase l1 →
      ∃ r, tabProcessPage pex true [b2] (tabProcessPage pex false [b1] []) = [r] ∧
        r.source_url = resolveUrl tabBase l1 ∧ r.title_ja = b1.title ∧
        r.title_en = some b2.title) ∧
    (∀ (pex : String → String × Option String) (lang : Bool) (evs : List Event)
        (b : CandidateBlock),
      (tabProcessBlock pex lang evs b).length = evs.length ∨
        (tabProcessBlock pex lang evs b).length = evs.length + 1) ∧
    (∀ (pex : String → String × Option String) (lang : Bool) (evs : List Event)
        (b : CandidateBlock) (i : Nat) (e : Event), evs[i]? = some e →
      ∃ e', (tabProcessBlock pex lang evs b)[i]? = some e' ∧
        (e' = e ∨ (lang = true ∧ optFalsy e.title_en = true ∧
          e' = { e with title_en := some b.title }))) := by
  refine ⟨?_, ?_, ?_⟩
  · intro pex b1 b2 l1 l2 h1 h2 hl1 hl2 hurl
    have step1 := tab_block_append pex b1 h1 hl1
    have step2 := tab_block_backfill pex b2 h2
      (r := { id := generateId "tab" (resolveUrl tabBase l1)
              title_ja := b1.title
              title_en := none
              description_ja := strOrNull b1.description
              description_en := none
              date_start := (pex b1.dateText).1
              date_end := (pex b1.dateText).2
              venue_name := jsOr b1.venueText "Gallery"
              venue_address := none
              area := detectArea (jsOr b1.venueText b1.title)
              category := "art"
              tags := ["art", "exhibition", "museum"]
              price_min := none
              price_max := none
              source_url := resolveUrl tabBase l1
              source_name := "Tokyo Art Beat"
              image_url := b1.imageUrl })
      hl2 (by simpa using hurl.symm) rfl
    refine ⟨{ id := generateId "tab" (resolveUrl tabBase l1)
              title_ja := b1.title
              title_en := some b2.title
              description_ja := strOrNull b1.description
              description_en := none
              date_start := (pex b1.dateText).1
              date_end := (pex b1.dateText).2
              venue_name := jsOr b1.venueText "Gallery"
              venue_address := none
              area := detectArea (jsOr b1.venueText b1.title)
              category := "art"
              tags := ["art", "exhibition", "museum"]
              price_min := none
              price_max := none
              source_url := resolveUrl tabBase l1
              source_name := "Tokyo Art Beat"
              image_url := b1.imageUrl }, ?_, rfl, rfl, rfl⟩
    show tabProcessBlock pex true (tabProcessBlock pex false [] b1) b2 = _
    rw [step1]
    exact step2
  · intro pex lang evs b
    by_cases ht : b.title = ""
    · unfold tabProcessBlock
      rw [if_pos ht]
      exact Or.inl rfl
    · unfold tabProcessBlock
      rw [if_neg ht]
      cases hlink : presentLink b.link with
      | none =>
        simp only [hlink]
        exact Or.inl trivial
      | some link =>
        simp only [hlink]
        by_cases hany : (evs.any (fun e =>
            e.source_url == resolveUrl tabBase link || e.title_ja == b.title ||
              e.title_en == some b.title)) = true
        · rw [if_pos hany]
          by_cases hlang : lang = true
          · rw [if_pos hlang]
            exact Or.inl (updateFirst_length _ _ evs)
          · rw [if_neg hlang]
            exact Or.inl rfl
        · rw [if_neg hany]
          simp
  · intro pex lang evs b i e he
    by_cases ht : b.title = ""
    · unfold tabProcessBlock
      rw [if_pos ht]
      exact ⟨e, he, Or.inl rfl⟩
    · unfold tabProcessBlock
      rw [if_neg ht]
      cases hlink : presentLink b.link with
      | none =>
        simp only [hlink]
        exact ⟨e, he, Or.inl rfl⟩
      | some link =>
        simp only [hlink]
        by_cases hany : (evs.any (fun e =>
            e.source_url == resolveUrl tabBase link || e.title_ja == b.title ||
              e.title_en == some b.title)) = true
        · rw [if_pos hany]
          by_cases hlang : lang = true
          · rw [if_pos hlang]
            obtain ⟨e', he', hcase⟩ := updateFirst_getElem?
              (fun e => e.source_url == resolveUrl tabBase link)
              (fun e => if optFalsy e.title_en then { e with title_en := some b.title } else e)
              he
            refine ⟨e', he', ?_⟩
            rcases hcase with rfl | rfl
            · exact Or.inl rfl
            · by_cases hfal : optFalsy e.title_en = true
              · refine Or.inr ⟨hlang, hfal, ?_⟩
                rw [if_pos hfal]
              · exact Or.inl (if_neg hfal)
          · rw [if_neg hlang]
            exact ⟨e, he, Or.inl rfl⟩
        · rw [if_neg hany]
          have hi : i < evs.length := by
            by_contra hge
            rw [List.getElem?_eq_none (Nat.le_of_not_lt hge)] at he
            cases he
          refine ⟨e, ?_, Or.inl rfl⟩
          rw [List.getElem?_append_left hi]
          exact he

/-- Witness for C2: a Japanese-page block then an English-page block for the
same exhibition URL. -/
theorem claim_C2_witness :
    (({ title := "現代美術展", link := some "/events/123", dateText := "", venueText := "",
        priceText := "", description := "", imageUrl := none } : CandidateBlock).title ≠ "" ∧
     ({ title := "Contemporary Art Show", link := some "/events/123", dateText := "",
        venueText := "", priceText := "", description := "",
        imageUrl := none } : CandidateBlock).title ≠ "") ∧
    ∃ r, tabProcessPage (fun _ => ("2025-01-01", none)) true
        [{ title := "Contemporary Art Show", link := some "/events/123", dateText := "",
           venueText := "", priceText := "", description := "", imageUrl := none }]
        (tabProcessPage (fun _ => ("2025-01-01", none)) false
          [{ title := "現代美術展", link := some "/events/123", dateText := "", venueText := "",
             priceText := "", description := "", imageUrl := none }] []) = [r] ∧
      r.source_url = resolveUrl tabBase "/events/123" ∧
      r.title_ja = "現代美術展" ∧
      r.title_en = some "Contemporary Art Show" :=
  ⟨⟨by decide, by decide⟩,
    claim_C2.1 (fun _ => ("2025-01-01", none))
      { title := "現代美術展", link := some "/events/123", dateText := "", venueText := "",
        priceText := "", description := "", imageUrl := none }
      { title := "Contemporary Art Show", link := some "/events/123", dateText := "",
        venueText := "", priceText := "", description := "", imageUrl := none }
      "/events/123" "/events/123" (by decide) (by decide) rfl rfl rfl⟩

/-! ## C8: area and category detection -/

/-- When no keyword group matches, `detectFirst` returns the fallback. -/
theorem detectFirst_all_false (pats : List (List String × String)) (fb text : String)
    (h : ∀ p ∈ pats, patternTest p.1 text = false) :
    detectFirst pats fb text = fb := by
  unfold detectFirst
  have hnone : pats.find? (fun p => patternTest p.1 text) = none := by
    rw [List.find?_eq_none]
    intro p hp
    simp [h p hp]
  rw [hnone]

/-- `detectFirst` returns the value of the first matching group. -/
theorem detectFirst_first_match (pats : List (List String × String)) (fb text : String) :
    ∀ (i : Nat) (hi : i < pats.length),
      patternTest (pats.get ⟨i, hi⟩).1 text = true →
      (∀ j (hj : j < i), patternTest (pats.get ⟨j, Nat.lt_trans hj hi⟩).1 text = false) →
      detectFirst pats fb text = (pats.get ⟨i, hi⟩).2 := by
  induction pats with
  | nil => intro i hi; cases hi
  | cons p tl ih =>
    intro i hi hmatch hbefore
    cases i with
    | zero =>
      unfold detectFirst
      rw [List.find?_cons_of_pos _ (by simpa using hmatch)]
      rfl
    | succ j =>
      have hp0 : patternTest p.1 text = false := hbefore 0 (Nat.succ_pos j)
      unfold detectFirst
      rw [List.find?_cons_of_neg _ (by simp [hp0])]
      have := ih j (Nat.lt_of_succ_lt_succ hi) hmatch
        (fun k hk => hbefore (k + 1) (Nat.succ_lt_succ hk))
      simpa [detectFirst] using this

/-- `detectFirst` returns the fallback or one of the listed values. -/
theorem detectFirst_mem (pats : List (List String × String)) (fb text : String) :
    detectFirst pats fb text = fb ∨ detectFirst pats fb text ∈ pats.map Prod.snd := by
  unfold detectFirst
  cases hf : pats.find? (fun p => patternTest p.1 text) with
  | none => exact Or.inl rfl
  | some p =>
    refine Or.inr (List.mem_map.mpr ⟨p, ?_, rfl⟩)
    exact List.mem_of_find?_eq_some hf

/-- Claim C8: area detection returns the canonical city of the first matching
keyword group in list order and `"Japan"` when none matches; category
detection likewise with fallback `"event"`; neither ever returns the empty
string; the orchestra/classical group is checked before the generic concert
group, so a text matching both classifies as `"orchestra"`. -/
theorem claim_C8 :
    (∀ text, (∀ p ∈ areaPatterns, patternTest p.1 text = false) →
      detectArea text = "Japan") ∧
    (∀ text, (∀ p ∈ categoryPatterns, patternTest p.1 text = false) →
      detectCategory text = "event") ∧
    (∀ text (i : Nat) (hi : i < areaPatterns.length),
      patternTest (areaPatterns.get ⟨i, hi⟩).1 text = true →
      (∀ j (hj : j < i), patternTest (areaPatterns.get ⟨j, Nat.lt_trans hj hi⟩).1 text = false) →
      detectArea text = (areaPatterns.get ⟨i, hi⟩).2) ∧
    (∀ text (i : Nat) (hi : i < categoryPatterns.length),
      patternTest (categoryPatterns.get ⟨i, hi⟩).1 text = true →
      (∀ j (hj : j < i),
        patternTest (categoryPatterns.get ⟨j, Nat.lt_trans hj hi⟩).1 text = false) →
      detectCategory text = (categoryPatterns.get ⟨i, hi⟩).2) ∧
    (∀ text, detectArea text ≠ "" ∧ detectCategory text ≠ "") ∧
    ((categoryPatterns.map Prod.snd).indexOf "orchestra" <
        (categoryPatterns.map Prod.snd).indexOf "concert" ∧
      detectCategory "classical music" = "orchestra" ∧
      patternTest (categoryPatterns.get ⟨2, by decide⟩).1 "classical music" = true ∧
      patternTest (categoryPatterns.get ⟨5, by decide⟩).1 "classical music" = true) := by
  refine ⟨?_, ?_, ?_, ?_, ?_, ?_, ?_, ?_, ?_⟩
  · intro text h
    exact detectFirst_all_false areaPatterns "Japan" text h
  · intro text h
    exact detectFirst_all_false categoryPatterns "event" text h
  · intro text i hi hm hb
    exact detectFirst_first_match areaPatterns "Japan" text i hi hm hb
  · intro text i hi hm hb
    exact detectFirst_first_match categoryPatterns "event" text i hi hm hb
  · intro text
    constructor
    · rcases detectFirst_mem areaPatterns "Japan" text with h | h
      · rw [show detectArea text = detectFirst areaPatterns "Japan" text from rfl, h]
        decide
      · intro hem
        rw [show detectArea text = detectFirst areaPatterns "Japan" text from rfl] at hem
        rw [hem] at h
        revert h
        decide
    · rcases detectFirst_mem categoryPatterns "event" text with h | h
      · rw [show detectCategory text = detectFirst categoryPatterns "event" text from rfl, h]
        decide
      · intro hem
        rw [show detectCategory text = detectFirst categoryPatterns "event" text from rfl] at hem
        rw [hem] at h
        revert h
        decide
  · decide
  · decide
  · decide
  · decide

/-- Witness for C8: the Osaka group is the first matching group for
`"osaka jazz night"`, and unmatched text falls back. -/
theorem claim_C8_witness :
    (patternTest (areaPatterns.get ⟨1, by decide⟩).1 "osaka jazz night" = true ∧
      (∀ j (hj : j < 1),
        patternTest (areaPatterns.get ⟨j, Nat.lt_trans hj (by decide)⟩).1 "osaka jazz night"
          = false) ∧
      (∀ p ∈ areaPatterns, patternTest p.1 "zzz" = false)) ∧
    detectArea "osaka jazz night" = (areaPatterns.get ⟨1, by decide⟩).2 ∧
    detectArea "zzz" = "Japan" :=
  ⟨⟨by decide, by decide, by decide⟩,
    claim_C8.2.2.1 "osaka jazz night" 1 (by decide) (by decide) (by decide),
    claim_C8.1 "zzz" (by decide)⟩

/-! ## C5: the short/full date normalizer -/

/-- Counterexample to C5 as stated: the ticketing source's normalizer supports
only `M/D` (not `M.D`), returning null on `"1.15"`, and the venue-chain
normalizer resolves a full `年月日` date through its month-day pattern with the
inferred year, not the literal year (`"2025年1月15日"` scraped in October 2025
becomes `"2026-01-15"`). -/
theorem claim_C5_counterexample :
    ticketPiaParseJapaneseDate 2025 10 "1.15" = none ∧
      billboardParseDateStr 2025 10 "2025年1月15日" = some "2026-01-15" ∧
      billboardParseDateStr 2025 10 "2025年1月15日" ≠ some "2025-01-15" := by
  refine ⟨by decide, by decide, by decide⟩

/-- Amended C5: the ticketing normalizer maps a full `YYYY年M月D日` date to its
literal ISO form, maps `M/D` (slash only) to the current year's date with the
year incremented exactly when M is numerically less than the current month, and
returns null when neither pattern occurs; the venue-chain normalizer
additionally accepts `.`-separated short and full numeric dates, and resolves a
bare `M月D日` (hence also a full `年月日` text) with the inferred year. -/
theorem claim_C5_amended :
    (∀ (cy cm : Nat) (s : String) (y m d : List Char),
      scanP matchFullDateAt s.data = some (y, m, d) →
      ticketPiaParseJapaneseDate cy cm s = some (fmtYMD ⟨y⟩ m d)) ∧
    (∀ (cy cm : Nat) (s : String) (m d : List Char),
      scanP matchFullDateAt s.data = none →
      scanP (matchShortAt ['/']) s.data = some (m, d) →
      ticketPiaParseJapaneseDate cy cm s =
        some (fmtYMD (natToStr (if digitsToNat m < cm then cy + 1 else cy)) m d)) ∧
    (∀ (cy cm : Nat) (s : String),
      scanP matchFullDateAt s.data = none →
      scanP (matchShortAt ['/']) s.data = none →
      ticketPiaParseJapaneseDate cy cm s = none) ∧
    (∀ (cy cm : Nat) (s : String) (m d : List Char),
      scanP matchFullDottedAt s.data = none →
      scanP (matchShortAt ['.', '/']) s.data = none →
      scanP matchMonthDayAt s.data = some (m, d) →
      billboardParseDateStr cy cm s =
        some (fmtYMD (natToStr (if digitsToNat m < cm then cy + 1 else cy)) m d)) ∧
    ((∀ cy cm, ticketPiaParseJapaneseDate cy cm "2025年1月15日" = some "2025-01-15") ∧
      ticketPiaParseJapaneseDate 2025 10 "1/15" = some "2026-01-15" ∧
      ticketPiaParseJapaneseDate 2025 1 "1/15" = some "2025-01-15" ∧
      ticketPiaParseJapaneseDate 2025 10 "11/3" = some "2025-11-03" ∧
      (∀ cy cm, ticketPiaParseJapaneseDate cy cm "来週" = none) ∧
      (∀ cy cm, billboardParseDateStr cy cm "2025.1.15" = some "2025-01-15") ∧
      billboardParseDateStr 2025 10 "1.15" = some "2026-01-15") := by
  refine ⟨?_, ?_, ?_, ?_, ?_⟩
  · intro cy cm s y m d hfull
    by_cases hs : s = ""
    · rw [hs] at hfull
      cases hfull
    · unfold ticketPiaParseJapaneseDate
      rw [if_neg hs, hfull]
  · intro cy cm s m d hfull hshort
    have hs : s ≠ "" := by
      intro hs
      rw [hs] at hshort
      cases hshort
    unfold ticketPiaParseJapaneseDate
    rw [if_neg hs, hfull, hshort]
  · intro cy cm s hfull hshort
    by_cases hs : s = ""
    · unfold ticketPiaParseJapaneseDate
      rw [if_pos hs]
    · unfold ticketPiaParseJapaneseDate
      rw [if_neg hs, hfull, hshort]
  · intro cy cm s m d hdot hshort hmd
    have hs : s ≠ "" := by
      intro hs
      rw [hs] at hmd
      cases hmd
    unfold billboardParseDateStr
    rw [if_neg hs, hdot, hshort, hmd]
  · exact ⟨fun cy cm => rfl, by decide, by decide, by decide, fun cy cm => rfl,
      fun cy cm => rfl, by decide⟩

/-- Witness for C5 (amended): the slash-form clause at `"1/15"` in October
2025, and the month-day clause of the venue-chain normalizer at `"1月15日"`. -/
theorem claim_C5_witness :
    (scanP matchFullDateAt "1/15".data = none ∧
      scanP (matchShortAt ['/']) "1/15".data = some (['1'], ['1', '5']) ∧
      scanP matchFullDottedAt "1月15日".data = none ∧
      scanP (matchShortAt ['.', '/']) "1月15日".data = none ∧
      scanP matchMonthDayAt "1月15日".data = some (['1'], ['1', '5'])) ∧
    ticketPiaParseJapaneseDate 2025 10 "1/15" =
      some (fmtYMD (natToStr (if digitsToNat ['1'] < 10 then 2025 + 1 else 2025))
        ['1'] ['1', '5']) ∧
    billboardParseDateStr 2025 10 "1月15日" =
      some (fmtYMD (natToStr (if digitsToNat ['1'] < 10 then 2025 + 1 else 2025))
        ['1'] ['1', '5']) :=
  ⟨⟨rfl, rfl, rfl, rfl, rfl⟩,
    claim_C5_amended.2.1 2025 10 "1/15" ['1'] ['1', '5'] rfl rfl,
    claim_C5_amended.2.2.2.1 2025 10 "1月15日" ['1'] ['1', '5'] rfl rfl rfl⟩

/-! ## C6: the Kabuki date-range parser

The two range patterns are analysed symbolically: a capture segment is any one-
or two-digit character list (`dsOk`), and the lemmas below compute `grab12` and
the two range scanners on inputs assembled from such segments.  This settles
the parser's behaviour on every canonical `M月D日〜D日` and `M月D日〜M月D日`
text at once, with no bound on the digit values beyond their width. -/

theorem beq_false_of_digit_nondigit {c t : Char}
    (hc : isDigitChar c = true) (ht : isDigitChar t = false) : (c == t) = false := by
  rw [beq_eq_false_iff_ne]
  intro heq
  subst heq
  rw [hc] at ht
  cases ht

theorem mem_of_contains_true {T : List Char} {t : Char} (h : T.contains t = true) : t ∈ T :=
  List.elem_iff.mp h

theorem not_mem_of_contains_false {T : List Char} {u : Char}
    (h : T.contains u = false) : ¬ u ∈ T := by
  intro hm
  have h2 : T.contains u = true := List.elem_iff.mpr hm
  rw [h2] at h
  cases h

/-- A list of non-digit terminators never contains a digit character. -/
theorem contains_digit_false {terms : List Char}
    (hterms : terms.all (fun t => !isDigitChar t) = true) {c : Char}
    (hc : isDigitChar c = true) : terms.contains c = false := by
  induction terms with
  | nil => rfl
  | cons t ts ih =>
    have hall := List.all_eq_true.mp hterms
    have ht : isDigitChar t = false := by
      have := hall t (List.mem_cons_self _ _)
      simpa using this
    have hts : ts.all (fun t => !isDigitChar t) = true :=
      List.all_eq_true.mpr (fun x hx => hall x (List.mem_cons_of_mem _ hx))
    have hct : (c == t) = false := beq_false_of_digit_nondigit hc ht
    have hrw : (t :: ts).contains c = ((c == t) || ts.contains c) := rfl
    rw [hrw, hct, Bool.false_or]
    exact ih hts

theorem dsOk_single {x : Char} (hx : isDigitChar x = true) : dsOk [x] = true := by
  simp [dsOk, hx]

theorem dsOk_pair {x y : Char} (hx : isDigitChar x = true) (hy : isDigitChar y = true) :
    dsOk [x, y] = true := by
  simp [dsOk, hx, hy]

theorem dsOk_cases {ds : List Char} (h : dsOk ds = true) :
    (∃ x, ds = [x] ∧ isDigitChar x = true) ∨
      ∃ x y, ds = [x, y] ∧ isDigitChar x = true ∧ isDigitChar y = true := by
  rcases ds with _ | ⟨x, _ | ⟨y, _ | ⟨z, tl⟩⟩⟩
  · simp [dsOk] at h
  · simp only [dsOk, List.all_cons, List.all_nil] at h
    exact Or.inl ⟨x, rfl, by simpa using h⟩
  · simp only [dsOk, List.all_cons, List.all_nil] at h
    refine Or.inr ⟨x, y, rfl, ?_, ?_⟩ <;> simp at h <;> simp [h]
  · simp [dsOk] at h

/-- Greedy `\d{1,2}` consumes a whole digit segment when the expected
terminator follows. -/
theorem grab12_seg_some {T ds rest : List Char} {t : Char} (hds : dsOk ds = true)
    (ht : T.contains t = true) (htd : isDigitChar t = false)
    (hT : T.all (fun c => !isDigitChar c) = true) :
    grab12 T (ds ++ t :: rest) = some (ds, rest) := by
  have htm : t ∈ T := mem_of_contains_true ht
  rcases dsOk_cases hds with ⟨x, rfl, hx⟩ | ⟨x, y, rfl, hx, hy⟩
  · cases rest with
    | nil => simp [grab12, hx, htd, ht, htm]
    | cons r rs => simp [grab12, hx, htd, ht, htm]
  · simp [grab12, hx, hy, ht, htm, contains_digit_false hT hy]

/-- Greedy `\d{1,2}` fails on a digit segment followed by the wrong non-digit
character. -/
theorem grab12_seg_none {T ds rest : List Char} {u : Char} (hds : dsOk ds = true)
    (hu : T.contains u = false) (hud : isDigitChar u = false)
    (hT : T.all (fun c => !isDigitChar c) = true) :
    grab12 T (ds ++ u :: rest) = none := by
  have hum : ¬ u ∈ T := not_mem_of_contains_false hu
  rcases dsOk_cases hds with ⟨x, rfl, hx⟩ | ⟨x, y, rfl, hx, hy⟩
  · cases rest with
    | nil => simp [grab12, hx, hud, hu, hum]
    | cons r rs => simp [grab12, hx, hud, hu, hum]
  · have hyn : ¬ y ∈ T := not_mem_of_contains_false (contains_digit_false hT hy)
    simp [grab12, hx, hy, hu, hum, hyn]

theorem grab12_head_none {T : List Char} {c : Char} {l : List Char}
    (hc : isDigitChar c = false) : grab12 T (c :: l) = none := by
  cases l with
  | nil => rfl
  | cons x tl => simp [grab12, hc]

/-- The same-month pattern cannot match at a non-digit character. -/
theorem msra_head_none {c : Char} {l : List Char} (hc : isDigitChar c = false) :
    matchSameRangeAt (c :: l) = none := by
  simp [matchSameRangeAt, grab12_head_none hc]

theorem scanP_cons_some {α : Type} {f : List Char → Option α} {x : Char}
    {tl : List Char} {r : α} (h : f (x :: tl) = some r) : scanP f (x :: tl) = some r := by
  simp [scanP, h]

theorem scanP_cons_none {α : Type} {f : List Char → Option α} {x : Char}
    {tl : List Char} (h : f (x :: tl) = none) : scanP f (x :: tl) = scanP f tl := by
  simp [scanP, h]

theorem scanP_head_some {α : Type} {f : List Char → Option α} {l : List Char} {r : α}
    (h : f l = some r) (hl : l ≠ []) : scanP f l = some r := by
  cases l with
  | nil => exact absurd rfl hl
  | cons x tl => exact scanP_cons_some h

/-- Scanning skips over a whole digit segment on which every start position
fails. -/
theorem scan_seg {α : Type} {f : List Char → Option α} {rest ds : List Char}
    (hds : dsOk ds = true)
    (hfail : ∀ ds', dsOk ds' = true → f (ds' ++ rest) = none) :
    scanP f (ds ++ rest) = scanP f rest := by
  rcases dsOk_cases hds with ⟨x, rfl, hx⟩ | ⟨x, y, rfl, hx, hy⟩
  · exact scanP_cons_none (hfail [x] (dsOk_single hx))
  · have h1 : scanP f (x :: y :: rest) = scanP f (y :: rest) :=
      scanP_cons_none (hfail [x, y] (dsOk_pair hx hy))
    have h2 : scanP f (y :: rest) = scanP f rest :=
      scanP_cons_none (hfail [y] (dsOk_single hy))
    exact h1.trans h2

/-- The same-month scan on a canonical same-month range text succeeds at
position zero with the three digit captures. -/
theorem same_scan_some {a b c : List Char}
    (ha : dsOk a = true) (hb : dsOk b = true) (hc : dsOk c = true) :
    scanP matchSameRangeAt (a ++ '月' :: (b ++ '日' :: '〜' :: (c ++ ['日'])))
      = some (a, b, c) := by
  have g1 : grab12 ['月'] (a ++ '月' :: (b ++ '日' :: '〜' :: (c ++ ['日'])))
      = some (a, b ++ '日' :: '〜' :: (c ++ ['日'])) :=
    grab12_seg_some ha (by decide) (by decide) (by decide)
  have g2 : grab12 ['日'] (b ++ '日' :: '〜' :: (c ++ ['日']))
      = some (b, '〜' :: (c ++ ['日'])) :=
    grab12_seg_some hb (by decide) (by decide) (by decide)
  have g3 : grab12 ['日'] (c ++ '日' :: []) = some (c, []) :=
    grab12_seg_some hc (by decide) (by decide) (by decide)
  have hm : matchSameRangeAt (a ++ '月' :: (b ++ '日' :: '〜' :: (c ++ ['日'])))
      = some (a, b, c) := by
    simp [matchSameRangeAt, g1, g2, g3, rangeSeps]
  refine scanP_head_some hm ?_
  rcases dsOk_cases ha with ⟨x, rfl, _⟩ | ⟨x, y, rfl, _, _⟩ <;> simp

/-- The same-month scan finds nothing anywhere in a canonical cross-month range
text: tried first by the parser, it cannot mis-capture a cross-month range. -/
theorem cross_scan_same_none {a b c d : List Char}
    (ha : dsOk a = true) (hb : dsOk b = true) (hc : dsOk c = true) (hd : dsOk d = true) :
    scanP matchSameRangeAt
      (a ++ '月' :: (b ++ '日' :: '〜' :: (c ++ '月' :: (d ++ ['日'])))) = none := by
  have hfail1 : ∀ a', dsOk a' = true →
      matchSameRangeAt (a' ++ '月' :: (b ++ '日' :: '〜' :: (c ++ '月' :: (d ++ ['日']))))
        = none := by
    intro a' ha'
    have g1 : grab12 ['月'] (a' ++ '月' :: (b ++ '日' :: '〜' :: (c ++ '月' :: (d ++ ['日']))))
        = some (a', b ++ '日' :: '〜' :: (c ++ '月' :: (d ++ ['日']))) :=
      grab12_seg_some ha' (by decide) (by decide) (by decide)
    have g2 : grab12 ['日'] (b ++ '日' :: '〜' :: (c ++ '月' :: (d ++ ['日'])))
        = some (b, '〜' :: (c ++ '月' :: (d ++ ['日']))) :=
      grab12_seg_some hb (by decide) (by decide) (by decide)
    have g3 : grab12 ['日'] (c ++ '月' :: (d ++ ['日'])) = none :=
      grab12_seg_none hc (by decide) (by decide) (by decide)
    simp [matchSameRangeAt, g1, g2, g3, rangeSeps]
  have hfail2 : ∀ b', dsOk b' = true →
      matchSameRangeAt (b' ++ '日' :: '〜' :: (c ++ '月' :: (d ++ ['日']))) = none := by
    intro b' hb'
    have g : grab12 ['月'] (b' ++ '日' :: '〜' :: (c ++ '月' :: (d ++ ['日']))) = none :=
      grab12_seg_none hb' (by decide) (by decide) (by decide)
    simp [matchSameRangeAt, g]
  have hfail3 : ∀ c', dsOk c' = true →
      matchSameRangeAt (c' ++ '月' :: (d ++ ['日'])) = none := by
    intro c' hc'
    have g1 : grab12 ['月'] (c' ++ '月' :: (d ++ ['日']))
        = some (c', d ++ ['日']) :=
      grab12_seg_some hc' (by decide) (by decide) (by decide)
    have g2 : grab12 ['日'] (d ++ '日' :: []) = some (d, []) :=
      grab12_seg_some hd (by decide) (by decide) (by decide)
    simp [matchSameRangeAt, g1, g2]
  have hfail4 : ∀ d', dsOk d' = true → matchSameRangeAt (d' ++ ['日']) = none := by
    intro d' hd'
    have g : grab12 ['月'] (d' ++ '日' :: []) = none :=
      grab12_seg_none hd' (by decide) (by decide) (by decide)
    simp [matchSameRangeAt, g]
  calc scanP matchSameRangeAt
        (a ++ '月' :: (b ++ '日' :: '〜' :: (c ++ '月' :: (d ++ ['日']))))
      = scanP matchSameRangeAt ('月' :: (b ++ '日' :: '〜' :: (c ++ '月' :: (d ++ ['日'])))) :=
        scan_seg ha hfail1
    _ = scanP matchSameRangeAt (b ++ '日' :: '〜' :: (c ++ '月' :: (d ++ ['日']))) :=
        scanP_cons_none (msra_head_none (by decide))
    _ = scanP matchSameRangeAt ('日' :: '〜' :: (c ++ '月' :: (d ++ ['日']))) :=
        scan_seg hb hfail2
    _ = scanP matchSameRangeAt ('〜' :: (c ++ '月' :: (d ++ ['日']))) :=
        scanP_cons_none (msra_head_none (by decide))
    _ = scanP matchSameRangeAt (c ++ '月' :: (d ++ ['日'])) :=
        scanP_cons_none (msra_head_none (by decide))
    _ = scanP matchSameRangeAt ('月' :: (d ++ ['日'])) := scan_seg hc hfail3
    _ = scanP matchSameRangeAt (d ++ ['日']) :=
        scanP_cons_none (msra_head_none (by decide))
    _ = scanP matchSameRangeAt ['日'] := scan_seg hd hfail4
    _ = scanP matchSameRangeAt [] := scanP_cons_none (msra_head_none (by decide))
    _ = none := rfl

/-- The cross-month scan on a canonical cross-month range text succeeds at
position zero with the four digit captures. -/
theorem cross_scan_cross_some {a b c d : List Char}
    (ha : dsOk a = true) (hb : dsOk b = true) (hc : dsOk c = true) (hd : dsOk d = true) :
    scanP matchCrossRangeAt
      (a ++ '月' :: (b ++ '日' :: '〜' :: (c ++ '月' :: (d ++ ['日']))))
      = some (a, b, c, d) := by
  have g1 : grab12 ['月'] (a ++ '月' :: (b ++ '日' :: '〜' :: (c ++ '月' :: (d ++ ['日']))))
      = some (a, b ++ '日' :: '〜' :: (c ++ '月' :: (d ++ ['日']))) :=
    grab12_seg_some ha (by decide) (by decide) (by decide)
  have g2 : grab12 ['日'] (b ++ '日' :: '〜' :: (c ++ '月' :: (d ++ ['日'])))
      = some (b, '〜' :: (c ++ '月' :: (d ++ ['日']))) :=
    grab12_seg_some hb (by decide) (by decide) (by decide)
  have g3 : grab12 ['月'] (c ++ '月' :: (d ++ ['日'])) = some (c, d ++ ['日']) :=
    grab12_seg_some hc (by decide) (by decide) (by decide)
  have g4 : grab12 ['日'] (d ++ '日' :: []) = some (d, []) :=
    grab12_seg_some hd (by decide) (by decide) (by decide)
  have hm : matchCrossRangeAt
      (a ++ '月' :: (b ++ '日' :: '〜' :: (c ++ '月' :: (d ++ ['日']))))
      = some (a, b, c, d) := by
    simp [matchCrossRangeAt, g1, g2, g3, g4, rangeSeps]
  refine scanP_head_some hm ?_
  rcases dsOk_cases ha with ⟨x, rfl, _⟩ | ⟨x, y, rfl, _, _⟩ <;> simp

theorem natToStrOkChk_true : natToStrOkChk = true := by decide

theorem natRoundChk_true : natRoundChk = true := by decide

theorem dsOk_natToStr {n : Nat} (h1 : 1 ≤ n) (h2 : n ≤ 99) :
    dsOk (natToStr n).data = true := by
  have hchk := natToStrOkChk_true
  unfold natToStrOkChk at hchk
  have h := List.all_eq_true.mp hchk (n - 1) (List.mem_range.mpr (by omega))
  simpa [Nat.sub_add_cancel h1] using h

theorem digitsToNat_natToStr {n : Nat} (h1 : 1 ≤ n) (h2 : n ≤ 99) :
    digitsToNat (natToStr n).data = n := by
  have hchk := natRoundChk_true
  unfold natRoundChk at hchk
  have h := List.all_eq_true.mp hchk (n - 1) (List.mem_range.mpr (by omega))
  have h2' := Nat.eq_of_beq_eq_true (by simpa using h)
  rw [Nat.sub_add_cancel h1] at h2'
  exact h2'

theorem sameRangeStr_data (m d1 d2 : Nat) :
    (sameRangeStr m d1 d2).data =
      (natToStr m).data ++ '月' ::
        ((natToStr d1).data ++ '日' :: '〜' :: ((natToStr d2).data ++ ['日'])) := by
  have h1 : ("月" : String).data = ['月'] := rfl
  have h2 : ("日〜" : String).data = ['日', '〜'] := rfl
  have h3 : ("日" : String).data = ['日'] := rfl
  simp [sameRangeStr, String.data_append, h1, h2, h3, List.append_assoc]

theorem crossRangeStr_data (m1 d1 m2 d2 : Nat) :
    (crossRangeStr m1 d1 m2 d2).data =
      (natToStr m1).data ++ '月' ::
        ((natToStr d1).data ++ '日' :: '〜' ::
          ((natToStr m2).data ++ '月' :: ((natToStr d2).data ++ ['日']))) := by
  have h1 : ("月" : String).data = ['月'] := rfl
  have h2 : ("日〜" : String).data = ['日', '〜'] := rfl
  have h3 : ("日" : String).data = ['日'] := rfl
  simp [crossRangeStr, String.data_append, h1, h2, h3, List.append_assoc]

/-- Claim C6: the traditional-theatre date-range normalizer maps every
canonical same-month range `M月D1日〜D2日` to a same-month result in the current
year, still maps every canonical cross-month range `M1月D1日〜M2月D2日` to a
cross-month result (the same-month pattern, tried first, never captures it),
and rolls the end year to Y+1 exactly when M2 < M1. -/
theorem claim_C6 :
    (∀ (cy : Nat) (today : String) (m d1 d2 : Nat),
      1 ≤ m → m ≤ 12 → 1 ≤ d1 → d1 ≤ 31 → 1 ≤ d2 → d2 ≤ 31 →
      parseKabukiDateRange cy today (sameRangeStr m d1 d2) =
        { start := fmtYMD (natToStr cy) (natToStr m).data (natToStr d1).data
          stop := some (fmtYMD (natToStr cy) (natToStr m).data (natToStr d2).data) }) ∧
    (∀ (cy : Nat) (today : String) (m1 d1 m2 d2 : Nat),
      1 ≤ m1 → m1 ≤ 12 → 1 ≤ d1 → d1 ≤ 31 → 1 ≤ m2 → m2 ≤ 12 → 1 ≤ d2 → d2 ≤ 31 →
      parseKabukiDateRange cy today (crossRangeStr m1 d1 m2 d2) =
        { start := fmtYMD (natToStr cy) (natToStr m1).data (natToStr d1).data
          stop := some (fmtYMD (natToStr (if m2 < m1 then cy + 1 else cy))
            (natToStr m2).data (natToStr d2).data) }) ∧
    (∀ today, parseKabukiDateRange 2025 today "1月2日〜26日" =
      { start := "2025-01-02", stop := some "2025-01-26" }) := by
  refine ⟨?_, ?_, ?_⟩
  · intro cy today m d1 d2 hm1 hm2 hd11 hd12 hd21 hd22
    have ha : dsOk (natToStr m).data = true := dsOk_natToStr hm1 (by omega)
    have hb : dsOk (natToStr d1).data = true := dsOk_natToStr hd11 (by omega)
    have hc : dsOk (natToStr d2).data = true := dsOk_natToStr hd21 (by omega)
    unfold parseKabukiDateRange
    rw [sameRangeStr_data, same_scan_some ha hb hc]
  · intro cy today m1 d1 m2 d2 hm11 hm12 hd11 hd12 hm21 hm22 hd21 hd22
    have ha : dsOk (natToStr m1).data = true := dsOk_natToStr hm11 (by omega)
    have hb : dsOk (natToStr d1).data = true := dsOk_natToStr hd11 (by omega)
    have hc : dsOk (natToStr m2).data = true := dsOk_natToStr hm21 (by omega)
    have hd : dsOk (natToStr d2).data = true := dsOk_natToStr hd21 (by omega)
    unfold parseKabukiDateRange
    rw [crossRangeStr_data, cross_scan_same_none ha hb hc hd,
      cross_scan_cross_some ha hb hc hd]
    dsimp only
    rw [digitsToNat_natToStr hm21 (by omega), digitsToNat_natToStr hm11 (by omega)]
  · intro today
    rfl

/-- Witness for C6: the spec's own example `1月2日〜26日` and the year-rolling
cross-month range `11月28日〜1月5日`, both in 2025. -/
theorem claim_C6_witness :
    ((1 ≤ 1 ∧ 1 ≤ 12 ∧ 1 ≤ 2 ∧ 2 ≤ 31 ∧ 1 ≤ 26 ∧ 26 ≤ 31) ∧
      (1 ≤ 11 ∧ 11 ≤ 12 ∧ 1 ≤ 28 ∧ 28 ≤ 31 ∧ 1 ≤ 1 ∧ 1 ≤ 12 ∧ 1 ≤ 5 ∧ 5 ≤ 31)) ∧
    parseKabukiDateRange 2025 "2025-10-11" (sameRangeStr 1 2 26) =
      { start := fmtYMD (natToStr 2025) (natToStr 1).data (natToStr 2).data
        stop := some (fmtYMD (natToStr 2025) (natToStr 1).data (natToStr 26).data) } ∧
    parseKabukiDateRange 2025 "2025-10-11" (crossRangeStr 11 28 1 5) =
      { start := fmtYMD (natToStr 2025) (natToStr 11).data (natToStr 28).data
        stop := some (fmtYMD (natToStr (if 1 < 11 then 2025 + 1 else 2025))
          (natToStr 1).data (natToStr 5).data) } :=
  ⟨⟨⟨by decide, by decide, by decide, by decide, by decide, by decide⟩,
    ⟨by decide, by decide, by decide, by decide, by decide, by decide, by decide, by decide⟩⟩,
    claim_C6.1 2025 "2025-10-11" 1 2 26
      (by decide) (by decide) (by decide) (by decide) (by decide) (by decide),
    claim_C6.2.1 2025 "2025-10-11" 11 28 1 5
      (by decide) (by decide) (by decide) (by decide)
      (by decide) (by decide) (by decide) (by decide)⟩

end JEF
